import Mathlib

/-!
Verification of the fetchutils convenience layer.

Shallow embedding of the option-merging, auth-resolution, body-encoding and
status-gating logic of the `fetchutils` library (`src/dist/fetchhelper.js`,
`src/dist/requesthelper.js`, `src/dist/formhelper.js` and the accompanying
type declarations), together with proofs of the behavioural claims about it.

JavaScript runtime values that the library inspects are modelled by `JsVal`;
option records are association lists from property names to values, mirroring
JavaScript object key order.  Instance state (`this.defaults`, `this.auth`,
`this.baseurl`, `this.onlysuccessful`, `this.agent`) is passed explicitly, and
each method returns the state it leaves behind, translating the presence or
absence of `this.*` assignments in the source.
-/

/-- A JavaScript runtime value as far as the library inspects one.
`func ret` models a zero-argument function that returns `ret` when invoked
(the library only ever calls credential functions with no arguments);
`agentv` models an `http.Agent` / `ProxyAgent` instance built by `setProxy`;
`formdata` models a `form-data` session (a list of appended field/value
pairs).  Objects are association lists in JavaScript key order. -/
inductive JsVal where
  | undef
  | jsnull
  | bool (b : Bool)
  | num (n : Int)
  | str (s : String)
  | arr (elems : List JsVal)
  | obj (fields : List (String × JsVal))
  | func (ret : String)
  | agentv (descr : String)
  | formdata (parts : List (String × String))

/-- JavaScript truthiness, restricted to the values `JsVal` models
(`NaN` does not arise because numbers are modelled as integers). -/
def truthy : JsVal → Bool
  | .undef => false
  | .jsnull => false
  | .bool b => b
  | .num n => n != 0
  | .str s => s ≠ ""
  | _ => true

/-- Whether `v instanceof Object` holds: every non-primitive value. -/
def jsInstanceofObject : JsVal → Bool
  | .arr _ => true
  | .obj _ => true
  | .func _ => true
  | .agentv _ => true
  | .formdata _ => true
  | _ => false

/-- First value stored under a key in an object's field list. -/
def lookupField : List (String × JsVal) → String → Option JsVal
  | [], _ => none
  | (k, v) :: rest, key => if k = key then some v else lookupField rest key

/-- JavaScript property assignment `o[key] = v`: updates the value in place
when the key exists (keeping its position) and appends it otherwise. -/
def setField : List (String × JsVal) → String → JsVal → List (String × JsVal)
  | [], key, v => [(key, v)]
  | (k, w) :: rest, key, v =>
    if k = key then (k, v) :: rest else (k, w) :: setField rest key v

/-- JavaScript `delete o[key]`. -/
def deleteField : List (String × JsVal) → String → List (String × JsVal)
  | [], _ => []
  | (k, w) :: rest, key =>
    if k = key then deleteField rest key else (k, w) :: deleteField rest key

/-- The values the `deepmerge` package recursively merges in the flows this
library exercises: plain arrays and plain objects.  (`deepmerge` also treats
other non-plain objects such as class instances as mergeable, but no flow in
the library merges configuration records holding such values at a colliding
key, so they are treated as atomic here.) -/
def isMergeable : JsVal → Bool
  | .arr _ => true
  | .obj _ => true
  | _ => false

mutual
/-- The `deepmerge` npm package with its default options, as the library calls
it (`merge(a, b)`): arrays merge by concatenation, objects merge key by key
(recursing when the source value is mergeable and the key exists on the
target), and in all other cases the source value wins.  Cloning is the
identity in this pure model.  The prototype-pollution guard
(`propertyIsUnsafe`) never fires on own-property association lists and is
omitted. -/
def deepmerge : JsVal → JsVal → JsVal
  | .arr ts, .arr ss => .arr (ts ++ ss)
  | _, .arr ss => .arr ss
  | .arr _, s => s
  | .obj tf, .obj sf => .obj (mergeFields tf tf sf)
  | _, .obj sf => .obj sf
  | .obj tf, _ => .obj tf
  | _, _ => .obj []

/-- One pass of `deepmerge`'s `mergeObject` over the source fields:
`torig` is the original target (consulted for collisions), `dest` the
accumulating result (initially a copy of the target). -/
def mergeFields (torig dest : List (String × JsVal)) :
    List (String × JsVal) → List (String × JsVal)
  | [] => dest
  | (k, v) :: rest =>
    let newv :=
      match lookupField torig k, isMergeable v with
      | some tv, true => deepmerge tv v
      | _, _ => v
    mergeFields torig (setField dest k newv) rest
end

/-- Modelled from `@yeasoft/baseutils` (external dependency, not part of this
repository): returns the value when it is a specified (non-empty) string and
the fallback otherwise. -/
def getSpecifiedStr (v : JsVal) (d : String) : String :=
  match v with
  | .str s => if s = "" then d else s
  | _ => d

/-- Modelled from `@yeasoft/baseutils` (external dependency, not part of this
repository): returns the value when it is an object (`instanceof Object`) and
the fallback otherwise. -/
def getValidObj (v defv : JsVal) : JsVal :=
  if jsInstanceofObject v then v else defv

/-- Worker for `natChars`; the fuel argument only bounds the recursion depth
and any fuel above the argument itself is enough. -/
def natCharsAux : Nat → Nat → List Char
  | 0, _ => []
  | fuel + 1, n =>
    if n < 10 then [Char.ofNat (48 + n)]
    else natCharsAux fuel (n / 10) ++ [Char.ofNat (48 + n % 10)]

/-- Decimal digits of a natural number, most significant first. -/
def natChars (n : Nat) : List Char := natCharsAux (n + 1) n

/-- Decimal rendering of an integer, as `String(n)` / `JSON.stringify(n)`
produce it for the integers the model admits. -/
def intChars (n : Int) : List Char :=
  if n < 0 then '-' :: natChars n.natAbs else natChars n.toNat

/-- UTF-8 bytes of one character, as `Buffer.from(string)` encodes it. -/
def utf8Bytes (c : Char) : List Nat :=
  let n := c.toNat
  if n < 128 then [n]
  else if n < 2048 then [192 + n / 64, 128 + n % 64]
  else if n < 65536 then [224 + n / 4096, 128 + (n / 64) % 64, 128 + n % 64]
  else [240 + n / 262144, 128 + (n / 4096) % 64, 128 + (n / 64) % 64, 128 + n % 64]

/-- UTF-8 bytes of a string. -/
def strBytes (s : String) : List Nat :=
  s.toList.foldr (fun c acc => utf8Bytes c ++ acc) []

/-- The base64 alphabet. -/
def b64Char (n : Nat) : Char :=
  "ABCDEFGHIJKLMNOPQRSTUVWXYZabcdefghijklmnopqrstuvwxyz0123456789+/".toList.getD n 'A'

/-- Standard base64 with padding, as `Buffer.prototype.toString('base64')`
produces it. -/
def b64Encode : List Nat → List Char
  | [] => []
  | [a] => [b64Char (a / 4), b64Char (a % 4 * 16), '=', '=']
  | [a, b] => [b64Char (a / 4), b64Char (a % 4 * 16 + b / 16), b64Char (b % 16 * 4), '=']
  | a :: b :: c :: rest =>
    b64Char (a / 4) :: b64Char (a % 4 * 16 + b / 16) ::
      b64Char (b % 16 * 4 + c / 64) :: b64Char (c % 64) :: b64Encode rest

mutual
/-- JavaScript string coercion (template literals, `+` with a string) for the
values the model admits.  Functions stringify to their source text in
JavaScript; the model keeps an opaque placeholder since no flow in the library
coerces a function to a string. -/
def jsToString : JsVal → String
  | .undef => "undefined"
  | .jsnull => "null"
  | .bool b => if b then "true" else "false"
  | .num n => String.mk (intChars n)
  | .str s => s
  | .arr es => jsToStringElems es
  | .obj _ => "[object Object]"
  | .func _ => "function"
  | .agentv _ => "[object Object]"
  | .formdata _ => "[object FormData]"

/-- `Array.prototype.toString`: elements joined with commas. -/
def jsToStringElems : List JsVal → String
  | [] => ""
  | [e] => jsToString e
  | e :: rest => jsToString e ++ "," ++ jsToStringElems rest
end

/-- Result of invoking a zero-argument function value (`auth.credentials()`).
Only reached under a `typeof credentials === 'function'` guard. -/
def callFunc : JsVal → String
  | .func r => r
  | _ => ""

/-- In `fetchhelper.js` the final branch of `prepareAuth` tests
`typeof credentials === 'string'` where `credentials` is a free identifier
with no binding anywhere in the module; `typeof` applied to an undeclared
identifier evaluates to `"undefined"` (even in strict mode), so the test can
never be true. -/
def typeofFreeCredentials : String := "undefined"

/-- `prepareAuth` from `fetchhelper.js`, over the field list of the auth
descriptor object.  Returns the `Authorization` header value, or `none` for
JavaScript `undefined`. -/
def prepareAuth (af : List (String × JsVal)) : Option String :=
  let username := (lookupField af "username").getD .undef
  let password := (lookupField af "password").getD .undef
  let credentials := (lookupField af "credentials").getD .undef
  let authtype := (lookupField af "authtype").getD .undef
  if truthy username && truthy password then
    some ("Basic " ++ String.mk (b64Encode (strBytes (jsToString username ++ ":" ++ jsToString password))))
  else if (match credentials with | .func _ => true | _ => false) then
    some (getSpecifiedStr authtype "Bearer" ++ " " ++ callFunc credentials)
  else if typeofFreeCredentials = "string" then
    some (getSpecifiedStr authtype "Bearer" ++ " " ++ jsToString credentials)
  else none

/-- `prepareAuth` applied to an arbitrary value, as `setAuth` and
`_prepareOptions` do: property access on a non-object non-null value yields
`undefined` for every key (the callers only reach this with object-like
values, the constructor having normalised `auth` to an object). -/
def prepareAuthVal (v : JsVal) : Option String :=
  match v with
  | .obj af => prepareAuth af
  | _ => prepareAuth []

/-- `_extractOptions` from `fetchhelper.js`: for each key of the key list that
is present, records its value and deletes it; returns the extracted record
(first component) next to the mutated options (second component). -/
def extractFields (l : List (String × JsVal)) (keys : List String) :
    List (String × JsVal) × List (String × JsVal) :=
  (keys.filterMap (fun k => (lookupField l k).map ((k, ·))),
   keys.foldl deleteField l)

/-- Field list of an object value; `[]` for anything else.  The callers below
only reach the non-object case through JavaScript flows whose property reads
yield `undefined` uniformly, which an empty field list reproduces. -/
def objFieldsD : JsVal → List (String × JsVal)
  | .obj f => f
  | _ => []

/-- `ensureObjMember` from `fetchhelper.js`: replaces the member by the
default unless it is already an object (`instanceof Object`). -/
def ensureObjMember (l : List (String × JsVal)) (key : String) (defval : JsVal) :
    List (String × JsVal) :=
  if jsInstanceofObject ((lookupField l key).getD .undef) then l
  else setField l key defval

/-- The persisted state of a `FetchHelper` instance: the retained node-fetch
defaults (after the helper keys were extracted), the resolved default
`Authorization` header, the base URL, the success-gating flag and the agent
slot (a `JsVal`, `undef` when unset, matching the truthiness test the code
applies to it). -/
structure FetchHelperState where
  defaults : List (String × JsVal)
  auth : Option String
  baseurl : String
  onlysuccessful : Bool
  agent : JsVal

/-- `setProxy` from `fetchhelper.js`: an object, string or `true` proxy
descriptor installs a fresh `ProxyAgent`; any other value leaves the agent
untouched (the surrounding `|| !this.agent` condition only gates the
`require` call, not the assignments). -/
def applySetProxy (st : FetchHelperState) (proxy : JsVal) : FetchHelperState :=
  match proxy with
  | .obj _ => { st with agent := .agentv (jsToString proxy) }
  | .str s => { st with agent := .agentv s }
  | .bool true => { st with agent := .agentv "env" }
  | _ => st

/-- The `FetchHelper` constructor: clones the options, normalises `headers`
and `auth` to objects, extracts the helper keys and runs the setters. -/
def FetchHelper.construct (options : JsVal) : FetchHelperState :=
  let defaults := objFieldsD (deepmerge (.obj []) (getValidObj options (.obj [])))
  let defaults := ensureObjMember defaults "headers" (.obj [])
  let defaults := ensureObjMember defaults "auth" (.obj [])
  let ex := extractFields defaults ["auth", "onlysuccessful", "baseurl", "agent", "proxy"]
  let st : FetchHelperState :=
    { defaults := ex.2
      auth := prepareAuthVal ((lookupField ex.1 "auth").getD .undef)
      onlysuccessful := truthy ((lookupField ex.1 "onlysuccessful").getD .undef)
      baseurl := getSpecifiedStr ((lookupField ex.1 "baseurl").getD .undef) ""
      agent := (lookupField ex.1 "agent").getD .undef }
  applySetProxy st ((lookupField ex.1 "proxy").getD .undef)

/-- `result.headers[key] = value`: updates the nested headers object.  Along
every modelled flow the merged options carry `headers` as an object (the
constructor normalises the instance defaults); a non-object `headers` value
would make the strict-mode assignment in the source throw and is outside the
modelled configurations, so it is left unchanged here. -/
def setHeaderField (opts : List (String × JsVal)) (key : String) (v : JsVal) :
    List (String × JsVal) :=
  match lookupField opts "headers" with
  | some (.obj hf) => setField opts "headers" (.obj (setField hf key v))
  | _ => opts

/-- `options.headers[key]` read through the merged options. -/
def lookupHeaderField (opts : List (String × JsVal)) (key : String) : Option JsVal :=
  match lookupField opts "headers" with
  | some (.obj hf) => lookupField hf key
  | _ => none

/-- `_prepareOptions` from `fetchhelper.js`: deep-merges the per-call options
onto the instance defaults, resolves a structured `auth` override ahead of
the persisted auth, removes the transient `auth` key, installs the resolved
`Authorization` header, and attaches the instance agent when one is held. -/
def FetchHelper.prepareOptions (st : FetchHelperState) (options : JsVal) :
    List (String × JsVal) :=
  let result := objFieldsD (deepmerge (.obj st.defaults) (getValidObj options (.obj [])))
  let authOverride := (lookupField result "auth").getD .undef
  let auth := if jsInstanceofObject authOverride then prepareAuthVal authOverride else st.auth
  let result := deleteField result "auth"
  let result :=
    match auth with
    | some a => setHeaderField result "Authorization" (.str a)
    | none => result
  if truthy st.agent then setField result "agent" st.agent else result

/-- A transport response as the status gate inspects it. -/
structure JsResponse where
  status : Nat
  statusText : String
deriving DecidableEq

/-- node-fetch's `Response.ok` getter: the status lies in 200–299. -/
def JsResponse.ok (r : JsResponse) : Bool :=
  decide (200 ≤ r.status) && decide (r.status < 300)

/-- `HttpStatusError` from `httpstatuserror.js`: the constructor stores the
message, the status under both `status` and `code`, and the raw response. -/
structure HttpStatusError where
  message : String
  status : Nat
  code : Nat
  res : JsResponse
deriving DecidableEq

/-- `new HttpStatusError(message, status, res)`. -/
def HttpStatusError.make (message : String) (status : Nat) (res : JsResponse) :
    HttpStatusError :=
  { message := message, status := status, code := status, res := res }

/-- What `_fetch` hands to the transport and to the gate: the concatenated
URL, the options after the helper keys were deleted, and the effective
success-gating flag. -/
structure FetchPlan where
  url : String
  transportOptions : List (String × JsVal)
  onlysuccessful : Bool

/-- The pre-transport half of `_fetch` from `fetchhelper.js`: resolves the
base URL, resolves gating (the per-call value only counts when it is exactly
a boolean), and deletes the two helper keys from the transport options. -/
def FetchHelper.fetchPlan (st : FetchHelperState) (url : String)
    (options : List (String × JsVal)) : FetchPlan :=
  let baseurl := getSpecifiedStr ((lookupField options "baseurl").getD .undef) st.baseurl
  let onlysuccessful :=
    match (lookupField options "onlysuccessful").getD .undef with
    | .bool b => b
    | _ => st.onlysuccessful
  let options := deleteField options "baseurl"
  let options := deleteField options "onlysuccessful"
  { url := baseurl ++ url, transportOptions := options, onlysuccessful := onlysuccessful }

/-- The status gate in `_fetch`: with gating on, an `ok` response is passed
through unchanged and any other response becomes a thrown `HttpStatusError`
built from the status line text, the status code and the raw response; with
gating off every response is passed through. -/
def gateResponse (onlysuccessful : Bool) (res : JsResponse) :
    Except HttpStatusError JsResponse :=
  if onlysuccessful then
    if res.ok then .ok res
    else .error (HttpStatusError.make res.statusText res.status res)
  else .ok res

/-- The post-transport half of `_fetch`: the gate applied at the effective
gating flag the plan resolved. -/
def FetchHelper.fetchResult (st : FetchHelperState) (url : String)
    (options : List (String × JsVal)) (res : JsResponse) :
    Except HttpStatusError JsResponse :=
  gateResponse (FetchHelper.fetchPlan st url options).onlysuccessful res

/-- `FetchHelper.fetch`, state-passing: the instance state it leaves behind
next to the plan it hands to `_fetch`. -/
def FetchHelper.fetchCall (st : FetchHelperState) (url : String) (options : JsVal) :
    FetchHelperState × FetchPlan :=
  (st, FetchHelper.fetchPlan st url (FetchHelper.prepareOptions st options))

/-- A JSON value as `JSON.stringify` receives it from this library: the
structured records the body encoder serialises.  Numbers are modelled as
integers; strings and object keys are character lists. -/
inductive Json where
  | null
  | bool (b : Bool)
  | num (n : Int)
  | str (s : List Char)
  | arr (elems : List Json)
  | obj (fields : List (List Char × Json))

/-- Lower-case hexadecimal digit. -/
def hexDigitChar (n : Nat) : Char :=
  if n < 10 then Char.ofNat (48 + n) else Char.ofNat (87 + n)

/-- The two lower-case hex digits of a byte. -/
def hexPair (n : Nat) : List Char :=
  [hexDigitChar (n / 16), hexDigitChar (n % 16)]

/-- How `JSON.stringify` escapes one character inside a string literal:
quote and backslash get a backslash escape, the five named control characters
get their short escapes, the remaining control characters become `\u00XX`,
and everything else is emitted verbatim. -/
def escapeChar (c : Char) : List Char :=
  if c = '"' then ['\\', '"']
  else if c = '\\' then ['\\', '\\']
  else if c = '\x08' then ['\\', 'b']
  else if c = '\x09' then ['\\', 't']
  else if c = '\x0a' then ['\\', 'n']
  else if c = '\x0c' then ['\\', 'f']
  else if c = '\x0d' then ['\\', 'r']
  else if c.toNat < 32 then '\\' :: 'u' :: '0' :: '0' :: hexPair c.toNat
  else [c]

/-- Escaped body of a JSON string literal. -/
def escapeStr (s : List Char) : List Char :=
  match s with
  | [] => []
  | c :: rest => escapeChar c ++ escapeStr rest

mutual
/-- `JSON.stringify` over the modelled JSON values (no spacing, keys in
object order), as the body encoder invokes it. -/
def stringifyJson : Json → List Char
  | .null => "null".toList
  | .bool true => "true".toList
  | .bool false => "false".toList
  | .num n => intChars n
  | .str s => '"' :: escapeStr s ++ ['"']
  | .arr [] => ['[', ']']
  | .arr (e :: es) => '[' :: (stringifyJson e ++ stringifyElemsRest es) ++ [']']
  | .obj [] => ['\x7b', '\x7d']
  | .obj (f :: fs) => '\x7b' :: (stringifyField f ++ stringifyFieldsRest fs) ++ ['\x7d']

/-- Remaining array elements, each preceded by a comma. -/
def stringifyElemsRest : List Json → List Char
  | [] => []
  | e :: es => ',' :: stringifyJson e ++ stringifyElemsRest es

/-- One object member: quoted escaped key, colon, value. -/
def stringifyField : List Char × Json → List Char
  | (k, v) => '"' :: escapeStr k ++ '"' :: ':' :: stringifyJson v

/-- Remaining object members, each preceded by a comma. -/
def stringifyFieldsRest : List (List Char × Json) → List Char
  | [] => []
  | f :: fs => ',' :: stringifyField f ++ stringifyFieldsRest fs
end

/-- Value of a hexadecimal digit character, by its code point. -/
def parseHexDigit (c : Char) : Option Nat :=
  let n := c.toNat
  if 48 ≤ n ∧ n ≤ 57 then some (n - 48)
  else if 97 ≤ n ∧ n ≤ 102 then some (n - 87)
  else if 65 ≤ n ∧ n ≤ 70 then some (n - 55)
  else none

/-- JSON string-literal body: consumes up to and including the closing quote,
resolving the standard escapes, and returns the decoded characters next to
the unconsumed suffix. -/
def parseStr : List Char → Option (List Char × List Char)
  | [] => none
  | c :: rest =>
    if c = '"' then some ([], rest)
    else if c = '\\' then
      match rest with
      | [] => none
      | e :: rest1 =>
        if e = '"' then (parseStr rest1).map (fun p => ('"' :: p.1, p.2))
        else if e = '\\' then (parseStr rest1).map (fun p => ('\\' :: p.1, p.2))
        else if e = '/' then (parseStr rest1).map (fun p => ('/' :: p.1, p.2))
        else if e = 'b' then (parseStr rest1).map (fun p => ('\x08' :: p.1, p.2))
        else if e = 'f' then (parseStr rest1).map (fun p => ('\x0c' :: p.1, p.2))
        else if e = 'n' then (parseStr rest1).map (fun p => ('\x0a' :: p.1, p.2))
        else if e = 'r' then (parseStr rest1).map (fun p => ('\x0d' :: p.1, p.2))
        else if e = 't' then (parseStr rest1).map (fun p => ('\x09' :: p.1, p.2))
        else if e = 'u' then
          match rest1 with
          | h1 :: h2 :: h3 :: h4 :: rest2 =>
            match parseHexDigit h1, parseHexDigit h2, parseHexDigit h3, parseHexDigit h4 with
            | some d1, some d2, some d3, some d4 =>
              (parseStr rest2).map
                (fun p => (Char.ofNat (d1 * 4096 + d2 * 256 + d3 * 16 + d4) :: p.1, p.2))
            | _, _, _, _ => none
          | _ => none
        else none
    else (parseStr rest).map (fun p => (c :: p.1, p.2))

/-- Consumes an expected keyword tail from the input; `none` when the input
does not start with it. -/
def dropLit : List Char → List Char → Option (List Char)
  | [], cs => some cs
  | w :: ws, c :: cs => if c = w then dropLit ws cs else none
  | _ :: _, [] => none

/-- Completes a keyword literal: produces the given value when the expected
tail is present. -/
def parseKeyword (j : Json) (w rest : List Char) : Option (Json × List Char) :=
  match dropLit w rest with
  | some r => some (j, r)
  | none => none

/-- Longest digit prefix and the remainder. -/
def spanDigits (cs : List Char) : List Char × List Char :=
  (cs.takeWhile Char.isDigit, cs.dropWhile Char.isDigit)

/-- Value of a digit string, most significant first. -/
def digitsToNat (ds : List Char) : Nat :=
  ds.foldl (fun a c => 10 * a + (c.toNat - 48)) 0

mutual
/-- Recursive-descent JSON value reader over the grammar `JSON.stringify`
emits (which is all the round-trip claim needs): literals, integers, strings,
arrays and objects without interstitial whitespace.  The fuel bounds the
nesting descent; `jsonParse` supplies more fuel than any input can consume. -/
def parseValue : Nat → List Char → Option (Json × List Char)
  | 0, _ => none
  | _ + 1, [] => none
  | fuel + 1, c :: rest =>
    if c = 'n' then parseKeyword .null "ull".toList rest
    else if c = 't' then parseKeyword (.bool true) "rue".toList rest
    else if c = 'f' then parseKeyword (.bool false) "alse".toList rest
    else if c = '"' then (parseStr rest).map (fun p => (.str p.1, p.2))
    else if c = '[' then
      match rest with
      | ']' :: r => some (.arr [], r)
      | _ => (parseElems fuel rest).map (fun p => (.arr p.1, p.2))
    else if c = '\x7b' then
      match rest with
      | '\x7d' :: r => some (.obj [], r)
      | _ => (parseFields fuel rest).map (fun p => (.obj p.1, p.2))
    else if c = '-' then
      match rest with
      | d :: _ =>
        if d.isDigit then
          let p := spanDigits rest
          some (.num (-(digitsToNat p.1 : Int)), p.2)
        else none
      | [] => none
    else if c.isDigit then
      let p := spanDigits (c :: rest)
      some (.num (digitsToNat p.1 : Int), p.2)
    else none

/-- One or more comma-separated array elements followed by `]`. -/
def parseElems : Nat → List Char → Option (List Json × List Char)
  | 0, _ => none
  | fuel + 1, cs =>
    match parseValue fuel cs with
    | some (j, rest) =>
      match rest with
      | ',' :: rest1 => (parseElems fuel rest1).map (fun p => (j :: p.1, p.2))
      | ']' :: rest1 => some ([j], rest1)
      | _ => none
    | none => none

/-- One or more comma-separated object members followed by the closing
brace. -/
def parseFields : Nat → List Char → Option (List (List Char × Json) × List Char)
  | 0, _ => none
  | fuel + 1, cs =>
    match cs with
    | '"' :: rest =>
      match parseStr rest with
      | some (k, rest1) =>
        match rest1 with
        | ':' :: rest2 =>
          match parseValue fuel rest2 with
          | some (v, rest3) =>
            match rest3 with
            | ',' :: rest4 => (parseFields fuel rest4).map (fun p => ((k, v) :: p.1, p.2))
            | '\x7d' :: rest4 => some ([(k, v)], rest4)
            | _ => none
          | none => none
        | _ => none
      | none => none
    | _ => none
end

/-- `JSON.parse` restricted to the output grammar of the modelled
`JSON.stringify`: accepts exactly when the whole input is one JSON value. -/
def jsonParse (cs : List Char) : Option Json :=
  match parseValue (cs.length + 1) cs with
  | some (j, []) => some j
  | _ => none

/-- The query-string option keys `requesthelper.js` separates out. -/
def QUERY_OPTIONS : List String :=
  ["strict", "encode", "sort", "arrayFormat", "arrayFormatSeparator", "skipNull", "skipEmptyString"]

/-- The persisted state of a `RequestHelper` instance: the inherited
`FetchHelper` state plus the extracted query-encoding options. -/
structure RequestHelperState where
  fh : FetchHelperState
  queryOptions : List (String × JsVal)

/-- The `RequestHelper` constructor: runs the `FetchHelper` constructor and
then extracts the query-string options from the retained defaults. -/
def RequestHelper.construct (options : JsVal) : RequestHelperState :=
  let fh := FetchHelper.construct options
  let ex := extractFields fh.defaults QUERY_OPTIONS
  { fh := { fh with defaults := ex.2 }, queryOptions := ex.1 }

/-- Modelled from the spec (§1, §4.3): serialization by the external
`query-string` package, which the spec places out of scope as an opaque
service.  No claim constrains its output; this model joins the top-level
fields as `key=value` pairs with `&` separators and ignores the encoding
options it is handed. -/
def queryStringifyModel (v : JsVal) (qopts : List (String × JsVal)) : String :=
  let _ := qopts
  String.intercalate "&" ((objFieldsD v).map (fun f => f.1 ++ "=" ++ jsToString f.2))

/-- `_prepareParams` from `requesthelper.js`: extracts the per-call query
options out of the effective options (mutating them), merges them onto the
persisted query options, and encodes object-like params into a `?`-prefixed
query string (empty string otherwise).  Returns the mutated options next to
the string appended to the URL. -/
def RequestHelper.prepareParams (st : RequestHelperState)
    (opts : List (String × JsVal)) (params : JsVal) :
    List (String × JsVal) × String :=
  let ex := extractFields opts QUERY_OPTIONS
  let qopts := objFieldsD (deepmerge (.obj st.queryOptions) (.obj ex.1))
  if jsInstanceofObject params then
    let r := queryStringifyModel params qopts
    (ex.2, if r = "" then "" else "?" ++ r)
  else (ex.2, "")

/-- The duck-typed shapes `_prepareBody` distinguishes in its argument.
`record j` covers the `data instanceof Object` branch, whose callers hand the
encoder a JSON-able structured record (a `Json.obj` or `Json.arr` value);
`primitive t` covers every other runtime value, carrying its `typeof` tag. -/
inductive BodyData where
  | noData
  | strv (s : String)
  | blob (ctype : String) (content : List Nat)
  | buffer (content : List Nat)
  | stream (tag : String)
  | record (j : Json)
  | primitive (t : String)

/-- The value `_prepareBody` leaves in `options.body`. -/
inductive BodyVal where
  | nullBody
  | strBody (s : String)
  | blobBody (ctype : String) (content : List Nat)
  | bufferBody (content : List Nat)
  | streamBody (tag : String)
  | formBody (parts : List (String × String))

/-- The exceptions `_prepareBody` can throw. -/
inductive JsError where
  | error (msg : String)
  | typeError (msg : String)

mutual
/-- The JavaScript value a modelled JSON record denotes (used when a record
is routed to the form-urlencoded encoder instead of `JSON.stringify`). -/
def jsonToJsVal : Json → JsVal
  | .null => .jsnull
  | .bool b => .bool b
  | .num n => .num n
  | .str s => .str (String.mk s)
  | .arr es => .arr (jsonElemsToJsVal es)
  | .obj fs => .obj (jsonFieldsToJsVal fs)

/-- Elementwise `jsonToJsVal`. -/
def jsonElemsToJsVal : List Json → List JsVal
  | [] => []
  | e :: es => jsonToJsVal e :: jsonElemsToJsVal es

/-- Fieldwise `jsonToJsVal`. -/
def jsonFieldsToJsVal : List (List Char × Json) → List (String × JsVal)
  | [] => []
  | (k, v) :: fs => (String.mk k, jsonToJsVal v) :: jsonFieldsToJsVal fs
end

/-- `ensureContentType` from `requesthelper.js`: installs the default (or
`application/octet-stream` when the default is unspecified) unless a
`Content-Type` header is already present. -/
def ensureContentType (opts : List (String × JsVal)) (defval : JsVal) :
    List (String × JsVal) :=
  match lookupHeaderField opts "Content-Type" with
  | none => setHeaderField opts "Content-Type" (.str (getSpecifiedStr defval "application/octet-stream"))
  | some _ => opts

/-- `testJsonContentType` from `requesthelper.js`: the value is a string with
at least one `/`, whose second `/`-segment, split at `+`, contains `json`. -/
def testJsonContentType (ct : JsVal) : Bool :=
  match ct with
  | .str s =>
    let parts := s.splitOn "/"
    if parts.length < 2 then false
    else (((parts.get? 1).getD "").splitOn "+").contains "json"
  | _ => false

/-- `_prepareBody` from `requesthelper.js`: branches on the shape of the data
and returns the options (headers possibly updated, per-call query options
extracted in the form-urlencoded branch) next to the body value, or throws. -/
def RequestHelper.prepareBody (st : RequestHelperState)
    (opts : List (String × JsVal)) (data : BodyData) :
    Except JsError (List (String × JsVal) × BodyVal) :=
  match data with
  | .noData => .ok (opts, .nullBody)
  | .strv s => .ok (ensureContentType opts (.str "text/plain"), .strBody s)
  | .blob t content => .ok (ensureContentType opts (.str t), .blobBody t content)
  | .buffer content => .ok (ensureContentType opts .undef, .bufferBody content)
  | .stream tag => .ok (ensureContentType opts .undef, .streamBody tag)
  | .record j =>
    match lookupHeaderField opts "Content-Type" with
    | none =>
      .ok (setHeaderField opts "Content-Type" (.str "application/json"),
           .strBody (String.mk (stringifyJson j)))
    | some (.str s) =>
      if s = "application/json" then
        .ok (opts, .strBody (String.mk (stringifyJson j)))
      else if s = "application/x-www-form-urlencoded" then
        let ex := extractFields opts QUERY_OPTIONS
        let qopts := objFieldsD (deepmerge (.obj st.queryOptions) (.obj ex.1))
        .ok (ex.2, .strBody (queryStringifyModel (jsonToJsVal j) qopts))
      else if testJsonContentType (.str s) then
        .ok (opts, .strBody (String.mk (stringifyJson j)))
      else .error (.error ("Invalid Content-Type " ++ s))
    | some ct =>
      if testJsonContentType ct then
        .ok (opts, .strBody (String.mk (stringifyJson j)))
      else .error (.error ("Invalid Content-Type " ++ jsToString ct))
  | .primitive t => .error (.typeError ("Unsupported data type " ++ t))

/-- `RequestHelper.get`: merge options, set the method, encode params into
the URL, and hand off to `_fetch`.  Returns the instance state left behind
next to the transport plan. -/
def RequestHelper.getCall (st : RequestHelperState) (url : String)
    (params : JsVal) (options : JsVal) : RequestHelperState × FetchPlan :=
  let opts := FetchHelper.prepareOptions st.fh options
  let opts := setField opts "method" (.str "GET")
  let pp := RequestHelper.prepareParams st opts params
  (st, FetchHelper.fetchPlan st.fh (url ++ pp.2) pp.1)

/-- The shared pipeline of the GET decode variants (`getGetJson`,
`getGetText`, `getGetBlob`, `getArrayBuffer`, `getBuffer`), which differ from
`get` only by forcing `options.onlysuccessful = true` before `_fetch` and by
the decode applied to the resolved response. -/
def RequestHelper.getDecodeCall (st : RequestHelperState) (url : String)
    (params : JsVal) (options : JsVal) : RequestHelperState × FetchPlan :=
  let opts := FetchHelper.prepareOptions st.fh options
  let opts := setField opts "method" (.str "GET")
  let opts := setField opts "onlysuccessful" (.bool true)
  let pp := RequestHelper.prepareParams st opts params
  (st, FetchHelper.fetchPlan st.fh (url ++ pp.2) pp.1)

/-- `RequestHelper.post`: merge options, encode the body, set the method,
hand off to `_fetch`.  The body encoder may throw. -/
def RequestHelper.postCall (st : RequestHelperState) (url : String)
    (data : BodyData) (options : JsVal) :
    RequestHelperState × Except JsError (FetchPlan × BodyVal) :=
  let opts := FetchHelper.prepareOptions st.fh options
  (st,
   match RequestHelper.prepareBody st opts data with
   | .ok (opts, body) =>
     let opts := setField opts "method" (.str "POST")
     .ok (FetchHelper.fetchPlan st.fh url opts, body)
   | .error e => .error e)

/-- The shared pipeline of the POST decode variants (`postGetJson`,
`postGetText`, `postGetBlob`, `postGetArrayBuffer`, `postGetBuffer`), which
differ from `post` only by forcing `options.onlysuccessful = true` before
`_fetch` and by the decode applied to the resolved response. -/
def RequestHelper.postDecodeCall (st : RequestHelperState) (url : String)
    (data : BodyData) (options : JsVal) :
    RequestHelperState × Except JsError (FetchPlan × BodyVal) :=
  let opts := FetchHelper.prepareOptions st.fh options
  (st,
   match RequestHelper.prepareBody st opts data with
   | .ok (opts, body) =>
     let opts := setField opts "method" (.str "POST")
     let opts := setField opts "onlysuccessful" (.bool true)
     .ok (FetchHelper.fetchPlan st.fh url opts, body)
   | .error e => .error e)

/-- The persisted state of a `FormHelper` instance: the inherited
`FetchHelper` state, the extracted form options, and the current mutable
form-data session (the appended field/value pairs). -/
structure FormHelperState where
  fh : FetchHelperState
  formOptions : List (String × JsVal)
  formData : List (String × String)

/-- The `FormHelper` constructor: runs the `FetchHelper` constructor,
extracts the `form-data` options from the retained defaults, and allocates a
fresh empty session. -/
def FormHelper.construct (options : JsVal) : FormHelperState :=
  let fh := FetchHelper.construct options
  let ex := extractFields fh.defaults ["maxDataSize", "pauseStreams"]
  { fh := { fh with defaults := ex.2 }, formOptions := ex.1, formData := [] }

/-- `FormHelper.append`: the underlying encoder retains every appended field,
duplicates included. -/
def FormHelper.append (st : FormHelperState) (field value : String) : FormHelperState :=
  { st with formData := st.formData ++ [(field, value)] }

/-- `FormHelper.reset`: discards the session and allocates a fresh one from
the persisted form options. -/
def FormHelper.reset (st : FormHelperState) : FormHelperState :=
  { st with formData := [] }

/-- `FormHelper.post`: merge options, set the method, fix the body to the
current form session, hand off to `_fetch`. -/
def FormHelper.postCall (st : FormHelperState) (url : String) (options : JsVal) :
    FormHelperState × FetchPlan :=
  let opts := FetchHelper.prepareOptions st.fh options
  let opts := setField opts "method" (.str "POST")
  let opts := setField opts "body" (.formdata st.formData)
  (st, FetchHelper.fetchPlan st.fh url opts)

/-- `FormHelper.postGetJson`: like `post` but additionally sets the header
`Accept: application/json` and the option key `onlyok` (sic — the source
writes `options.onlyok = true`, a key `_fetch` never reads) before handing
off, then decodes the resolved response as JSON. -/
def FormHelper.postGetJsonCall (st : FormHelperState) (url : String) (options : JsVal) :
    FormHelperState × FetchPlan :=
  let opts := FetchHelper.prepareOptions st.fh options
  let opts := setField opts "method" (.str "POST")
  let opts := setHeaderField opts "Accept" (.str "application/json")
  let opts := setField opts "onlyok" (.bool true)
  let opts := setField opts "body" (.formdata st.formData)
  (st, FetchHelper.fetchPlan st.fh url opts)

/-- `FormHelper.submit` delegates to `post`. -/
def FormHelper.submitCall (st : FormHelperState) (url : String) (options : JsVal) :
    FormHelperState × FetchPlan :=
  FormHelper.postCall st url options

/-- `FormHelper.submitGetJson` delegates to `postGetJson`. -/
def FormHelper.submitGetJsonCall (st : FormHelperState) (url : String) (options : JsVal) :
    FormHelperState × FetchPlan :=
  FormHelper.postGetJsonCall st url options

/-- The method names the `RequestHelper` class body in `requesthelper.js`
actually defines (its own prototype methods). -/
def RequestHelper.implementedMethods : List String :=
  ["constructor", "get", "getGetJson", "getGetText", "getGetBlob", "getArrayBuffer",
   "getBuffer", "post", "postGetJson", "postGetText", "postGetBlob",
   "postGetArrayBuffer", "postGetBuffer", "_prepareParams", "_prepareBody"]

/-- The method names the `FetchHelper` class body in `fetchhelper.js` defines
(inherited by `RequestHelper`). -/
def FetchHelper.implementedMethods : List String :=
  ["constructor", "fetch", "setAuth", "setBasicAuth", "setBaseUrl", "setAgent",
   "setProxy", "setOnlySuccesful", "_extractOptions", "_prepareOptions", "_fetch"]

/-- Every method name callable on a `RequestHelper` instance (own prototype
methods plus the inherited `FetchHelper` ones). -/
def RequestHelper.callableMethods : List String :=
  RequestHelper.implementedMethods ++ FetchHelper.implementedMethods

/-- The method names the `RequestHelper` class declaration in
`requesthelper.d.ts` declares. -/
def RequestHelper.declaredMethods : List String :=
  ["constructor", "get", "getGetJson", "getGetText", "getGetBlob", "getArrayBuffer",
   "getBuffer", "post", "postGetJson", "postGetText", "postGetBlob",
   "postGetArrayBuffer", "postGetBuffer", "delete", "deleteGetJson", "deleteGetText",
   "deleteGetBlob", "deleteGetArrayBuffer", "deleteGetBuffer"]

/-- Whether a value is exactly of JavaScript boolean type
(`typeof v === 'boolean'`). -/
def isBoolVal : JsVal → Bool
  | .bool _ => true
  | _ => false

/-- Lookup in the record "B overriding A": B's entry wins whenever B has the
key, A's entry applies otherwise.  This is the union-with-override law the
spec states for header merging. -/
def overrideLookup (bh ah : List (String × JsVal)) (k : String) : Option JsVal :=
  match lookupField bh k with
  | some v => some v
  | none => lookupField ah k

/-- The `Authorization` header value `_prepareOptions` resolves for a call on
instance `st` with per-call overrides `B`: a structured `auth` override in
the merged options is resolved afresh, any other merged `auth` value
(including its absence) falls back to the persisted instance auth. -/
def FetchHelper.effAuth (st : FetchHelperState) (B : List (String × JsVal)) :
    Option String :=
  let merged := mergeFields st.defaults st.defaults B
  if jsInstanceofObject ((lookupField merged "auth").getD .undef) then
    prepareAuthVal ((lookupField merged "auth").getD .undef)
  else st.auth

mutual
/-- Parser fuel sufficient for one JSON value: one unit per node of the value
plus one per list element, so that the fuel the recursive-descent reader
consumes while re-reading the value's serialization never runs out. -/
def jsonFuel : Json → Nat
  | .null => 1
  | .bool _ => 1
  | .num _ => 1
  | .str _ => 1
  | .arr es => 1 + elemsFuel es
  | .obj fs => 1 + fieldsFuel fs

/-- Fuel for a list of array elements. -/
def elemsFuel : List Json → Nat
  | [] => 0
  | e :: es => 1 + jsonFuel e + elemsFuel es

/-- Fuel for a list of object members. -/
def fieldsFuel : List (List Char × Json) → Nat
  | [] => 0
  | f :: fs => 1 + jsonFuel f.2 + fieldsFuel fs
end

theorem lookupField_setField (l : List (String × JsVal)) (key key2 : String) (v : JsVal) :
    lookupField (setField l key v) key2 =
      if key = key2 then some v else lookupField l key2 := by
  induction l with
  | nil =>
    by_cases h : key = key2 <;> simp [setField, lookupField, h]
  | cons hd tl ih =>
    obtain ⟨k, w⟩ := hd
    by_cases hk : k = key
    · subst hk
      by_cases h2 : k = key2 <;> simp [setField, lookupField, h2]
    · by_cases h2 : k = key2
      · subst h2
        have : key ≠ k := fun h => hk h.symm
        simp [setField, lookupField, hk, this]
      · simp [setField, lookupField, hk, h2, ih]

theorem lookupField_deleteField (l : List (String × JsVal)) (key key2 : String) :
    lookupField (deleteField l key) key2 =
      if key = key2 then none else lookupField l key2 := by
  induction l with
  | nil => by_cases h : key = key2 <;> simp [deleteField, lookupField, h]
  | cons hd tl ih =>
    obtain ⟨k, w⟩ := hd
    by_cases hk : k = key
    · subst hk
      by_cases h2 : k = key2
      · subst h2; simp [deleteField, ih]
      · simp [deleteField, lookupField, h2, ih]
    · by_cases h2 : k = key2
      · subst h2
        have hne : key ≠ k := fun h => hk h.symm
        simp [deleteField, lookupField, hk, hne]
      · simp [deleteField, lookupField, hk, h2, ih]

theorem lookupField_foldl_deleteField (keys : List String) (l : List (String × JsVal))
    (key : String) :
    lookupField (keys.foldl deleteField l) key =
      if key ∈ keys then none else lookupField l key := by
  induction keys generalizing l with
  | nil => simp
  | cons k ks ih =>
    by_cases hk : key ∈ k :: ks
    · rcases List.mem_cons.mp hk with h | h
      · subst h
        by_cases hks : key ∈ ks
        · simp [List.foldl_cons, ih, hks]
        · simp [List.foldl_cons, ih, hks, lookupField_deleteField]
      · simp [List.foldl_cons, ih, h, hk]
    · have h1 : key ≠ k := fun h => hk (by simp [h])
      have h2 : key ∉ ks := fun h => hk (by simp [h])
      have h1s : k ≠ key := fun h => h1 h.symm
      simp [List.foldl_cons, ih, h2, hk, lookupField_deleteField, h1s]

theorem lookupField_eq_none_iff (l : List (String × JsVal)) (key : String) :
    lookupField l key = none ↔ key ∉ l.map Prod.fst := by
  induction l with
  | nil => simp [lookupField]
  | cons hd tl ih =>
    obtain ⟨k, w⟩ := hd
    by_cases hk : k = key
    · subst hk; simp [lookupField]
    · have : key ≠ k := fun h => hk h.symm
      simp [lookupField, hk, this, ih]

theorem lookupField_setHeaderField_ne (opts : List (String × JsVal)) (k : String)
    (v : JsVal) (key : String) (h : key ≠ "headers") :
    lookupField (setHeaderField opts k v) key = lookupField opts key := by
  unfold setHeaderField
  have h2 : "headers" ≠ key := Ne.symm h
  cases hh : lookupField opts "headers" with
  | none => rfl
  | some hv =>
    cases hv <;> simp [lookupField_setField, h2]

theorem lookupField_mergeFields (sf : List (String × JsVal))
    (torig dest : List (String × JsVal)) (key : String)
    (hnodup : (sf.map Prod.fst).Nodup) :
    lookupField (mergeFields torig dest sf) key =
      match lookupField sf key with
      | some v =>
        some (match lookupField torig key, isMergeable v with
              | some tv, true => deepmerge tv v
              | _, _ => v)
      | none => lookupField dest key := by
  induction sf generalizing dest with
  | nil => simp [mergeFields, lookupField]
  | cons hd tl ih =>
    obtain ⟨k, v⟩ := hd
    have hk_tl : k ∉ tl.map Prod.fst := by
      have := hnodup
      simp only [List.map_cons, List.nodup_cons] at this
      exact this.1
    have htl : (tl.map Prod.fst).Nodup := by
      have := hnodup
      simp only [List.map_cons, List.nodup_cons] at this
      exact this.2
    by_cases hk : k = key
    · subst hk
      have hnone : lookupField tl k = none := (lookupField_eq_none_iff tl k).mpr hk_tl
      simp only [mergeFields, ih _ htl, hnone, lookupField, if_pos rfl,
        lookupField_setField]
      simp
    · simp only [mergeFields, ih _ htl, lookupField, if_neg hk, lookupField_setField,
        if_neg hk]

theorem lookupField_ensureObjMember_ne (l : List (String × JsVal)) (key key2 : String)
    (defval : JsVal) (h : key ≠ key2) :
    lookupField (ensureObjMember l key defval) key2 = lookupField l key2 := by
  unfold ensureObjMember
  split
  · rfl
  · simp [lookupField_setField, h]

theorem applySetProxy_defaults (st : FetchHelperState) (p : JsVal) :
    (applySetProxy st p).defaults = st.defaults := by
  cases p <;> try rfl
  rename_i b
  cases b <;> rfl

theorem applySetProxy_auth (st : FetchHelperState) (p : JsVal) :
    (applySetProxy st p).auth = st.auth := by
  cases p <;> try rfl
  rename_i b
  cases b <;> rfl

/-- C9: the effective only-successful flag used by `_fetch` equals the
per-call `options.onlysuccessful` exactly when that value is of boolean type;
every non-boolean value falls back to the instance's persisted flag. -/
theorem c9_gating_flag_type_check (st : FetchHelperState) (url : String)
    (opts : List (String × JsVal)) (v : JsVal) :
    (∀ b, v = .bool b →
      (FetchHelper.fetchPlan st url (setField opts "onlysuccessful" v)).onlysuccessful = b) ∧
    (isBoolVal v = false →
      (FetchHelper.fetchPlan st url (setField opts "onlysuccessful" v)).onlysuccessful
        = st.onlysuccessful) := by
  constructor
  · rintro b rfl
    simp [FetchHelper.fetchPlan, lookupField_setField]
  · intro hv
    cases v <;> simp_all [FetchHelper.fetchPlan, lookupField_setField, isBoolVal]

/-- Witness for C9 at the concrete non-boolean per-call value `1`. -/
theorem c9_gating_flag_type_check_witness :
    (FetchHelper.fetchPlan (FetchHelper.construct (.obj [])) "/x"
      (setField [] "onlysuccessful" (.num 1))).onlysuccessful
      = (FetchHelper.construct (.obj [])).onlysuccessful ∧
    isBoolVal (.num 1) = false :=
  ⟨(c9_gating_flag_type_check (FetchHelper.construct (.obj [])) "/x" [] (.num 1)).2 rfl, rfl⟩

/-- C10: `_fetch` deletes `baseurl` and `onlysuccessful` from the options
before the transport sees them, just as `_prepareOptions` already removed
`auth`. -/
theorem c10_helper_keys_removed (st : FetchHelperState) (url : String)
    (opts : List (String × JsVal)) (options : JsVal) :
    lookupField (FetchHelper.fetchPlan st url opts).transportOptions "baseurl" = none ∧
    lookupField (FetchHelper.fetchPlan st url opts).transportOptions "onlysuccessful" = none ∧
    lookupField (FetchHelper.prepareOptions st options) "auth" = none := by
  refine ⟨?_, ?_, ?_⟩
  · simp [FetchHelper.fetchPlan, lookupField_deleteField]
  · simp [FetchHelper.fetchPlan, lookupField_deleteField]
  · simp only [FetchHelper.prepareOptions]
    set merged := objFieldsD (deepmerge (.obj st.defaults) (getValidObj options (.obj [])))
    set auth := if jsInstanceofObject ((lookupField merged "auth").getD .undef) then
      prepareAuthVal ((lookupField merged "auth").getD .undef) else st.auth
    cases auth with
    | none =>
      by_cases h : truthy st.agent <;>
        simp [h, lookupField_setField, lookupField_deleteField]
    | some a =>
      by_cases h : truthy st.agent <;>
        simp [h, lookupField_setField, lookupField_deleteField,
          lookupField_setHeaderField_ne]

/-- C1 (amended): with the effective only-successful flag true, the gate in
`_fetch` passes a response through unchanged exactly when the transport
reports it `ok` — status in 200–299 — and fails with an `HttpStatusError`
carrying the status line text, the status code and the raw response for every
other status (so also for the informational and redirect statuses below 400,
not only for statuses at or above 400 as the claim states). -/
theorem c1_gate_throws_iff_not_ok (st : FetchHelperState) (url : String)
    (opts : List (String × JsVal)) (res : JsResponse)
    (h : (FetchHelper.fetchPlan st url opts).onlysuccessful = true) :
    (FetchHelper.fetchResult st url opts res = .ok res ↔
      200 ≤ res.status ∧ res.status < 300) ∧
    (¬(200 ≤ res.status ∧ res.status < 300) →
      FetchHelper.fetchResult st url opts res =
        .error (HttpStatusError.make res.statusText res.status res)) := by
  unfold FetchHelper.fetchResult gateResponse
  rw [h]
  by_cases hok : res.ok
  · have hrange : 200 ≤ res.status ∧ res.status < 300 := by
      simpa [JsResponse.ok] using hok
    simp [hok, hrange]
  · have hrange : ¬(200 ≤ res.status ∧ res.status < 300) := by
      simpa [JsResponse.ok] using hok
    simp [hok, hrange]

/-- Witness for C1 at a concrete gated call and a 204 response. -/
theorem c1_gate_throws_iff_not_ok_witness :
    FetchHelper.fetchResult (FetchHelper.construct (.obj [("onlysuccessful", .bool true)]))
      "/r"
      (FetchHelper.prepareOptions
        (FetchHelper.construct (.obj [("onlysuccessful", .bool true)])) .undef)
      { status := 204, statusText := "No Content" } =
      .ok { status := 204, statusText := "No Content" } :=
  ((c1_gate_throws_iff_not_ok _ "/r" _ _ (by rfl)).1).mpr (by decide)

/-- C1 counterexample: a gated call that sees a 301 response — a status below
400 — does not return the response unchanged but fails with an
`HttpStatusError`, because the gate tests `res.ok` (200–299), refuting the
claim that gating throws iff the status is at least 400. -/
theorem c1_claim_counterexample :
    (FetchHelper.fetchPlan (FetchHelper.construct (.obj [("onlysuccessful", .bool true)]))
      "/r"
      (FetchHelper.prepareOptions
        (FetchHelper.construct (.obj [("onlysuccessful", .bool true)])) .undef)).onlysuccessful
      = true ∧
    301 < 400 ∧
    FetchHelper.fetchResult (FetchHelper.construct (.obj [("onlysuccessful", .bool true)]))
      "/r"
      (FetchHelper.prepareOptions
        (FetchHelper.construct (.obj [("onlysuccessful", .bool true)])) .undef)
      { status := 301, statusText := "Moved Permanently" } =
      .error (HttpStatusError.make "Moved Permanently" 301
        { status := 301, statusText := "Moved Permanently" }) :=
  ⟨rfl, by decide, rfl⟩

/-- C2: the implementation drops string-valued credentials — the third branch
of `prepareAuth` tests `typeof credentials === 'string'` on an undeclared
identifier and can never fire — while the basic-auth pair, function-valued
credentials, their precedence, and the empty-descriptor fallback behave as
the claim states. -/
theorem c2_string_credentials_dropped :
    prepareAuth [("credentials", .str "tok")] = none ∧
    prepareAuth [("username", .str "u"), ("password", .str "p")] = some "Basic dTpw" ∧
    prepareAuth [("credentials", .func "abc")] = some "Bearer abc" ∧
    prepareAuth [("authtype", .str "Token"), ("credentials", .func "abc")] = some "Token abc" ∧
    prepareAuth [("username", .str "u"), ("password", .str "p"), ("credentials", .func "abc")]
      = some "Basic dTpw" ∧
    prepareAuth [] = none :=
  ⟨rfl, rfl, rfl, rfl, rfl, rfl⟩

/-- C5: `requesthelper.d.ts` declares a DELETE base call and its decode
variants, but the class body in `requesthelper.js` implements none of them
(neither does the inherited `FetchHelper`), while the GET and POST surface it
declares is implemented. -/
theorem c5_delete_methods_missing :
    "delete" ∈ RequestHelper.declaredMethods ∧
    "deleteGetJson" ∈ RequestHelper.declaredMethods ∧
    "delete" ∉ RequestHelper.callableMethods ∧
    "deleteGetJson" ∉ RequestHelper.callableMethods ∧
    "deleteGetText" ∉ RequestHelper.callableMethods ∧
    "deleteGetBlob" ∉ RequestHelper.callableMethods ∧
    "deleteGetArrayBuffer" ∉ RequestHelper.callableMethods ∧
    "deleteGetBuffer" ∉ RequestHelper.callableMethods ∧
    "get" ∈ RequestHelper.callableMethods ∧
    "getGetJson" ∈ RequestHelper.callableMethods ∧
    "getGetText" ∈ RequestHelper.callableMethods ∧
    "getGetBlob" ∈ RequestHelper.callableMethods ∧
    "getArrayBuffer" ∈ RequestHelper.callableMethods ∧
    "getBuffer" ∈ RequestHelper.callableMethods ∧
    "post" ∈ RequestHelper.callableMethods ∧
    "postGetJson" ∈ RequestHelper.callableMethods ∧
    "postGetText" ∈ RequestHelper.callableMethods ∧
    "postGetBlob" ∈ RequestHelper.callableMethods ∧
    "postGetArrayBuffer" ∈ RequestHelper.callableMethods ∧
    "postGetBuffer" ∈ RequestHelper.callableMethods := by
  decide

/-- C8: no call method mutates the persisted instance configuration — every
modelled call leaves the instance state it was given unchanged, computing
only an ephemeral merged copy. -/
theorem c8_calls_preserve_state (stF : FetchHelperState) (stR : RequestHelperState)
    (stH : FormHelperState) (url : String) (params : JsVal) (data : BodyData)
    (options : JsVal) :
    (FetchHelper.fetchCall stF url options).1 = stF ∧
    (RequestHelper.getCall stR url params options).1 = stR ∧
    (RequestHelper.getDecodeCall stR url params options).1 = stR ∧
    (RequestHelper.postCall stR url data options).1 = stR ∧
    (RequestHelper.postDecodeCall stR url data options).1 = stR ∧
    (FormHelper.postCall stH url options).1 = stH ∧
    (FormHelper.postGetJsonCall stH url options).1 = stH ∧
    (FormHelper.submitCall stH url options).1 = stH ∧
    (FormHelper.submitGetJsonCall stH url options).1 = stH :=
  ⟨rfl, rfl, rfl, rfl, rfl, rfl, rfl, rfl, rfl⟩

/-- C4: `FormHelper.postGetJson` (and `submitGetJson`, which delegates to it)
does route through the options merger with the body fixed to the current form
session and does set `Accept: application/json`, but it fails to force
only-successful gating: it sets the misspelled key `onlyok` (which even
reaches the transport options), `_fetch` reads only `onlysuccessful`, so with
the instance default the effective flag stays false and a 404 response is
passed to the JSON decode instead of failing with an `HttpStatusError`. -/
theorem c4_form_postgetjson_gating_not_forced :
    lookupHeaderField
      ((FormHelper.postGetJsonCall (FormHelper.construct (.obj [])) "/x" .undef).2).transportOptions
      "Accept" = some (.str "application/json") ∧
    lookupField
      ((FormHelper.postGetJsonCall (FormHelper.construct (.obj [])) "/x" .undef).2).transportOptions
      "body" = some (.formdata []) ∧
    lookupField
      ((FormHelper.postGetJsonCall (FormHelper.construct (.obj [])) "/x" .undef).2).transportOptions
      "onlyok" = some (.bool true) ∧
    ((FormHelper.postGetJsonCall (FormHelper.construct (.obj [])) "/x" .undef).2).onlysuccessful
      = false ∧
    gateResponse
      ((FormHelper.postGetJsonCall (FormHelper.construct (.obj [])) "/x" .undef).2).onlysuccessful
      { status := 404, statusText := "Not Found" } =
      .ok { status := 404, statusText := "Not Found" } ∧
    FormHelper.submitGetJsonCall (FormHelper.construct (.obj [])) "/x" .undef =
      FormHelper.postGetJsonCall (FormHelper.construct (.obj [])) "/x" .undef :=
  ⟨rfl, rfl, rfl, rfl, rfl, rfl⟩

theorem ensureObjMember_of_object (l : List (String × JsVal)) (key : String)
    (d v : JsVal) (h : lookupField l key = some v)
    (hv : jsInstanceofObject v = true) : ensureObjMember l key d = l := by
  unfold ensureObjMember
  rw [h]
  simp [hv]

theorem construct_defaults_unfold (A : List (String × JsVal)) :
    (FetchHelper.construct (.obj A)).defaults =
      ["auth", "onlysuccessful", "baseurl", "agent", "proxy"].foldl deleteField
        (ensureObjMember (ensureObjMember (mergeFields [] [] A) "headers" (.obj []))
          "auth" (.obj [])) := by
  simp [FetchHelper.construct, applySetProxy_defaults, extractFields, deepmerge,
    getValidObj, jsInstanceofObject, objFieldsD]

theorem lookupField_construct_defaults (A : List (String × JsVal)) (k : String)
    (hA : (A.map Prod.fst).Nodup) (hk1 : k ≠ "headers") (hk2 : k ≠ "auth")
    (hk3 : k ≠ "onlysuccessful") (hk4 : k ≠ "baseurl") (hk5 : k ≠ "agent")
    (hk6 : k ≠ "proxy") :
    lookupField (FetchHelper.construct (.obj A)).defaults k = lookupField A k := by
  rw [construct_defaults_unfold, lookupField_foldl_deleteField]
  have hmem : k ∉ ["auth", "onlysuccessful", "baseurl", "agent", "proxy"] := by
    simp [hk2, hk3, hk4, hk5, hk6]
  rw [if_neg hmem]
  rw [lookupField_ensureObjMember_ne _ _ _ _ (Ne.symm hk2),
      lookupField_ensureObjMember_ne _ _ _ _ (Ne.symm hk1)]
  rw [lookupField_mergeFields A [] [] k hA]
  cases h : lookupField A k <;> simp [lookupField]

theorem lookupField_construct_defaults_auth (A : List (String × JsVal)) :
    lookupField (FetchHelper.construct (.obj A)).defaults "auth" = none := by
  rw [construct_defaults_unfold, lookupField_foldl_deleteField]
  simp

theorem lookupField_construct_defaults_headers (A Ah : List (String × JsVal))
    (hA : (A.map Prod.fst).Nodup)
    (hAh : lookupField A "headers" = some (.obj Ah)) :
    lookupField (FetchHelper.construct (.obj A)).defaults "headers" = some (.obj Ah) := by
  have h0 : lookupField (mergeFields [] [] A) "headers" = some (.obj Ah) := by
    rw [lookupField_mergeFields A [] [] _ hA, hAh]
    simp [lookupField]
  rw [construct_defaults_unfold, lookupField_foldl_deleteField]
  simp only [List.mem_cons, List.not_mem_nil, or_false]
  rw [if_neg (by simp)]
  rw [ensureObjMember_of_object _ _ _ _ h0 rfl,
      lookupField_ensureObjMember_ne _ _ _ _ (by decide), h0]

theorem lookupField_prepareOptions (st : FetchHelperState) (B : List (String × JsVal))
    (k : String) (hB : (B.map Prod.fst).Nodup) (hk1 : k ≠ "auth") (hk2 : k ≠ "headers")
    (hk3 : k ≠ "agent") :
    lookupField (FetchHelper.prepareOptions st (.obj B)) k =
      match lookupField B k with
      | some v =>
        some (match lookupField st.defaults k, isMergeable v with
              | some tv, true => deepmerge tv v
              | _, _ => v)
      | none => lookupField st.defaults k := by
  have hval : getValidObj (.obj B) (.obj []) = .obj B := by
    simp [getValidObj, jsInstanceofObject]
  have hmerge : objFieldsD (deepmerge (.obj st.defaults) (getValidObj (.obj B) (.obj []))) =
      mergeFields st.defaults st.defaults B := by
    rw [hval]; rfl
  simp only [FetchHelper.prepareOptions, hmerge]
  have hstep : ∀ l : List (String × JsVal),
      lookupField (if truthy st.agent = true then setField l "agent" st.agent else l) k
        = lookupField l k := by
    intro l
    by_cases h : truthy st.agent <;> simp [h, lookupField_setField, Ne.symm hk3]
  cases hav : (if jsInstanceofObject
        ((lookupField (mergeFields st.defaults st.defaults B) "auth").getD .undef) = true then
      prepareAuthVal ((lookupField (mergeFields st.defaults st.defaults B) "auth").getD .undef)
    else st.auth) with
  | none =>
    simp only [hstep]
    rw [lookupField_deleteField, if_neg (Ne.symm hk1),
        lookupField_mergeFields B _ _ _ hB]
  | some a =>
    simp only [hstep]
    rw [lookupField_setHeaderField_ne _ _ _ _ hk2,
        lookupField_deleteField, if_neg (Ne.symm hk1),
        lookupField_mergeFields B _ _ _ hB]

/-- C3 (amended): at a key on which both the instance defaults and the
per-call overrides carry arrays, the effective options produced by
`_prepareOptions` carry the concatenation — the defaults' elements followed
by the override's — because `deepmerge` is called with its default array
behaviour; the override's array does not replace the defaults' array. -/
theorem c3_arrays_concatenated (A B : List (String × JsVal)) (k : String)
    (xs ys : List JsVal) (hA : (A.map Prod.fst).Nodup) (hB : (B.map Prod.fst).Nodup)
    (hAk : lookupField A k = some (.arr xs)) (hBk : lookupField B k = some (.arr ys))
    (hk1 : k ≠ "headers") (hk2 : k ≠ "auth") (hk3 : k ≠ "onlysuccessful")
    (hk4 : k ≠ "baseurl") (hk5 : k ≠ "agent") (hk6 : k ≠ "proxy") :
    lookupField (FetchHelper.prepareOptions (FetchHelper.construct (.obj A)) (.obj B)) k
      = some (.arr (xs ++ ys)) := by
  rw [lookupField_prepareOptions _ B k hB hk2 hk1 hk5, hBk,
      lookupField_construct_defaults A k hA hk1 hk2 hk3 hk4 hk5 hk6, hAk]
  rfl

/-- Witness for C3 at concrete array-valued defaults and overrides. -/
theorem c3_arrays_concatenated_witness :
    lookupField
      (FetchHelper.prepareOptions
        (FetchHelper.construct (.obj [("follow", .arr [.num 1, .num 2])]))
        (.obj [("follow", .arr [.num 3])])) "follow"
      = some (.arr ([.num 1, .num 2] ++ [.num 3])) :=
  c3_arrays_concatenated [("follow", .arr [.num 1, .num 2])] [("follow", .arr [.num 3])]
    "follow" [.num 1, .num 2] [.num 3] (by simp) (by simp) rfl rfl
    (by decide) (by decide) (by decide) (by decide) (by decide) (by decide)

/-- C3 counterexample: defaults holding `[1, 2]` and an override holding
`[3]` at the same key merge to `[1, 2, 3]`, not to the override's array
wholesale, refuting the claimed replace-on-conflict behaviour. -/
theorem c3_claim_counterexample :
    lookupField
      (FetchHelper.prepareOptions
        (FetchHelper.construct (.obj [("follow", .arr [.num 1, .num 2])]))
        (.obj [("follow", .arr [.num 3])])) "follow"
      = some (.arr [.num 1, .num 2, .num 3]) ∧
    lookupField
      (FetchHelper.prepareOptions
        (FetchHelper.construct (.obj [("follow", .arr [.num 1, .num 2])]))
        (.obj [("follow", .arr [.num 3])])) "follow"
      ≠ some (.arr [.num 3]) := by
  refine ⟨rfl, ?_⟩
  rw [show lookupField
      (FetchHelper.prepareOptions
        (FetchHelper.construct (.obj [("follow", .arr [.num 1, .num 2])]))
        (.obj [("follow", .arr [.num 3])])) "follow"
      = some (.arr [.num 1, .num 2, .num 3]) from rfl]
  simp

theorem lookupField_mem (l : List (String × JsVal)) (key : String) (v : JsVal)
    (h : lookupField l key = some v) : (key, v) ∈ l := by
  induction l with
  | nil => simp [lookupField] at h
  | cons hd tl ih =>
    obtain ⟨k, w⟩ := hd
    by_cases hk : k = key
    · subst hk
      simp [lookupField] at h
      simp [h]
    · simp [lookupField, hk] at h
      simp [ih h]

theorem lookupField_mergeFields_flat (Ah Bh : List (String × JsVal)) (key : String)
    (hBhn : (Bh.map Prod.fst).Nodup)
    (hBhv : ∀ p ∈ Bh, isMergeable p.2 = false) :
    lookupField (mergeFields Ah Ah Bh) key = overrideLookup Bh Ah key := by
  rw [lookupField_mergeFields Bh Ah Ah key hBhn]
  unfold overrideLookup
  cases hBk : lookupField Bh key with
  | none => rfl
  | some v =>
    have hv : isMergeable v = false := hBhv (key, v) (lookupField_mem _ _ _ hBk)
    cases hAk : lookupField Ah key <;> simp [hv]

theorem lookupField_prepareOptions_headers (st : FetchHelperState)
    (B Dh Bh : List (String × JsVal)) (hB : (B.map Prod.fst).Nodup)
    (hDh : lookupField st.defaults "headers" = some (.obj Dh))
    (hBh : lookupField B "headers" = some (.obj Bh)) :
    lookupField (FetchHelper.prepareOptions st (.obj B)) "headers" =
      some (.obj (match FetchHelper.effAuth st B with
        | some a => setField (mergeFields Dh Dh Bh) "Authorization" (.str a)
        | none => mergeFields Dh Dh Bh)) := by
  have hval : getValidObj (.obj B) (.obj []) = .obj B := by
    simp [getValidObj, jsInstanceofObject]
  have hmerge : objFieldsD (deepmerge (.obj st.defaults) (getValidObj (.obj B) (.obj []))) =
      mergeFields st.defaults st.defaults B := by
    rw [hval]; rfl
  have hmh : lookupField (mergeFields st.defaults st.defaults B) "headers" =
      some (.obj (mergeFields Dh Dh Bh)) := by
    rw [lookupField_mergeFields B _ _ _ hB, hBh, hDh]
    rfl
  have hdh : lookupField (deleteField (mergeFields st.defaults st.defaults B) "auth")
      "headers" = some (.obj (mergeFields Dh Dh Bh)) := by
    rw [lookupField_deleteField, if_neg (by decide), hmh]
  simp only [FetchHelper.prepareOptions, hmerge]
  have hstep : ∀ l : List (String × JsVal),
      lookupField (if truthy st.agent = true then setField l "agent" st.agent else l)
        "headers" = lookupField l "headers" := by
    intro l
    by_cases h : truthy st.agent <;> simp [h, lookupField_setField]
  have heff : FetchHelper.effAuth st B =
      (if jsInstanceofObject
          ((lookupField (mergeFields st.defaults st.defaults B) "auth").getD .undef) = true then
        prepareAuthVal ((lookupField (mergeFields st.defaults st.defaults B) "auth").getD .undef)
      else st.auth) := rfl
  rw [← heff]
  cases hav : FetchHelper.effAuth st B with
  | none => simp only [hstep, hdh]
  | some a =>
    simp only [hstep]
    unfold setHeaderField
    rw [hdh]
    rw [lookupField_setField]
    simp

/-- C6 (amended): for configuration records whose `headers` members are
records of non-mergeable (string) values, the effective headers produced by
`_prepareOptions` are the union of the instance headers and the per-call
headers with the per-call value winning on collision — except at
`Authorization`, which is overwritten by the resolved auth header whenever an
auth descriptor (the per-call structured override, or else the persisted
instance auth) resolves to one. -/
theorem c6_headers_override_union (A B Ah Bh : List (String × JsVal))
    (hA : (A.map Prod.fst).Nodup) (hB : (B.map Prod.fst).Nodup)
    (hAh : lookupField A "headers" = some (.obj Ah))
    (hBh : lookupField B "headers" = some (.obj Bh))
    (hBhn : (Bh.map Prod.fst).Nodup)
    (hBhv : ∀ p ∈ Bh, isMergeable p.2 = false) :
    (∀ k, k ≠ "Authorization" →
      lookupHeaderField
        (FetchHelper.prepareOptions (FetchHelper.construct (.obj A)) (.obj B)) k
        = overrideLookup Bh Ah k) ∧
    (match FetchHelper.effAuth (FetchHelper.construct (.obj A)) B with
     | some a =>
       lookupHeaderField
         (FetchHelper.prepareOptions (FetchHelper.construct (.obj A)) (.obj B))
         "Authorization" = some (.str a)
     | none =>
       lookupHeaderField
         (FetchHelper.prepareOptions (FetchHelper.construct (.obj A)) (.obj B))
         "Authorization" = overrideLookup Bh Ah "Authorization") := by
  have hDh := lookupField_construct_defaults_headers A Ah hA hAh
  have hh := lookupField_prepareOptions_headers (FetchHelper.construct (.obj A)) B Ah Bh
    hB hDh hBh
  constructor
  · intro k hk
    unfold lookupHeaderField
    rw [hh]
    cases hav : FetchHelper.effAuth (FetchHelper.construct (.obj A)) B with
    | none => exact lookupField_mergeFields_flat Ah Bh k hBhn hBhv
    | some a =>
      show lookupField (setField (mergeFields Ah Ah Bh) "Authorization" (JsVal.str a)) k
        = overrideLookup Bh Ah k
      rw [lookupField_setField, if_neg (Ne.symm hk)]
      exact lookupField_mergeFields_flat Ah Bh k hBhn hBhv
  · cases hav : FetchHelper.effAuth (FetchHelper.construct (.obj A)) B with
    | none =>
      show lookupHeaderField
        (FetchHelper.prepareOptions (FetchHelper.construct (.obj A)) (.obj B))
        "Authorization" = overrideLookup Bh Ah "Authorization"
      unfold lookupHeaderField
      rw [hh, hav]
      exact lookupField_mergeFields_flat Ah Bh "Authorization" hBhn hBhv
    | some a =>
      show lookupHeaderField
        (FetchHelper.prepareOptions (FetchHelper.construct (.obj A)) (.obj B))
        "Authorization" = some (.str a)
      unfold lookupHeaderField
      rw [hh, hav]
      show lookupField (setField (mergeFields Ah Ah Bh) "Authorization" (JsVal.str a))
        "Authorization" = some (JsVal.str a)
      rw [lookupField_setField]
      simp

/-- Witness for C6 at concrete header records colliding on one key. -/
theorem c6_headers_override_union_witness :
    lookupHeaderField
      (FetchHelper.prepareOptions
        (FetchHelper.construct
          (.obj [("headers", .obj [("X-A", .str "1"), ("Both", .str "a")])]))
        (.obj [("headers", .obj [("Both", .str "b"), ("X-B", .str "2")])]))
      "Both"
      = overrideLookup [("Both", .str "b"), ("X-B", .str "2")]
          [("X-A", .str "1"), ("Both", .str "a")] "Both" :=
  (c6_headers_override_union
      [("headers", .obj [("X-A", .str "1"), ("Both", .str "a")])]
      [("headers", .obj [("Both", .str "b"), ("X-B", .str "2")])]
      [("X-A", .str "1"), ("Both", .str "a")]
      [("Both", .str "b"), ("X-B", .str "2")]
      (by simp) (by simp) rfl rfl (by simp)
      (by intro p hp; simp at hp; rcases hp with rfl | rfl <;> rfl)).1
    "Both" (by decide)

/-- C6 counterexample: with empty instance headers and a per-call override
that carries only a basic-auth descriptor, the effective headers contain an
`Authorization` entry although the union of the two (empty) header records
contains none, refuting the claim that the effective headers are exactly that
union. -/
theorem c6_claim_counterexample :
    lookupHeaderField
      (FetchHelper.prepareOptions (FetchHelper.construct (.obj []))
        (.obj [("auth", .obj [("username", .str "u"), ("password", .str "p")])]))
      "Authorization" = some (.str "Basic dTpw") ∧
    overrideLookup [] [] "Authorization" = none :=
  ⟨rfl, rfl⟩

theorem digitChar_isDigit : ∀ m < 10, (Char.ofNat (48 + m)).isDigit = true := by decide

theorem digitChar_toNat : ∀ m < 10, (Char.ofNat (48 + m)).toNat = 48 + m := by decide

theorem digitsToNat_append (xs : List Char) (c : Char) :
    digitsToNat (xs ++ [c]) = 10 * digitsToNat xs + (c.toNat - 48) := by
  unfold digitsToNat
  rw [List.foldl_append]
  rfl

theorem natCharsAux_spec (fuel : Nat) :
    ∀ n, n < fuel →
      natCharsAux fuel n ≠ [] ∧
      (∀ c ∈ natCharsAux fuel n, c.isDigit = true) ∧
      digitsToNat (natCharsAux fuel n) = n := by
  induction fuel with
  | zero => intro n hn; omega
  | succ fuel ih =>
    intro n hn
    by_cases h10 : n < 10
    · refine ⟨by simp [natCharsAux, h10], ?_, ?_⟩
      · intro c hc
        simp [natCharsAux, h10] at hc
        subst hc
        exact digitChar_isDigit n h10
      · simp [natCharsAux, h10, digitsToNat, digitChar_toNat n h10]
    · have hrec : n / 10 < fuel := by omega
      obtain ⟨hne, hdig, hval⟩ := ih (n / 10) hrec
      have hm : n % 10 < 10 := Nat.mod_lt _ (by omega)
      refine ⟨by simp [natCharsAux, h10], ?_, ?_⟩
      · intro c hc
        simp only [natCharsAux, if_neg h10, List.mem_append, List.mem_singleton] at hc
        rcases hc with hc | hc
        · exact hdig c hc
        · subst hc
          exact digitChar_isDigit _ hm
      · simp only [natCharsAux, if_neg h10]
        rw [digitsToNat_append, hval, digitChar_toNat _ hm]
        omega

theorem natChars_spec (n : Nat) :
    natChars n ≠ [] ∧ (∀ c ∈ natChars n, c.isDigit = true) ∧
      digitsToNat (natChars n) = n :=
  natCharsAux_spec (n + 1) n (by omega)

theorem spanDigits_append (ds rest : List Char) (hds : ∀ c ∈ ds, c.isDigit = true)
    (hrest : ∀ c, rest.head? = some c → c.isDigit = false) :
    spanDigits (ds ++ rest) = (ds, rest) := by
  unfold spanDigits
  induction ds with
  | nil =>
    simp only [List.nil_append]
    cases rest with
    | nil => simp
    | cons c t =>
      have := hrest c rfl
      simp [List.takeWhile, List.dropWhile, this]
  | cons d ds ih =>
    have hd : d.isDigit = true := hds d (by simp)
    have hds2 : ∀ c ∈ ds, c.isDigit = true := fun c hc => hds c (by simp [hc])
    have := ih hds2
    simp only [List.cons_append, List.takeWhile_cons, List.dropWhile_cons, hd]
    simp only [Prod.mk.injEq] at this
    simp [this.1, this.2]

theorem isDigit_ne (c : Char) (h : c.isDigit = true) :
    c ≠ '[' ∧ c ≠ ']' ∧ c ≠ '\x7b' ∧ c ≠ '\x7d' ∧ c ≠ ',' ∧ c ≠ ':' ∧ c ≠ '-' ∧
    c ≠ 'n' ∧ c ≠ 't' ∧ c ≠ 'f' ∧ c ≠ '"' := by
  refine ⟨?_, ?_, ?_, ?_, ?_, ?_, ?_, ?_, ?_, ?_, ?_⟩ <;>
    (intro hc; subst hc; exact absurd h (by decide))

theorem parseHexDigit_hexDigitChar : ∀ d < 16, parseHexDigit (hexDigitChar d) = some d := by
  decide

theorem parseStr_quote (rest : List Char) : parseStr ('"' :: rest) = some ([], rest) := by
  rw [parseStr.eq_def]
  simp

theorem parseStr_plain (c : Char) (h1 : c ≠ '"') (h2 : c ≠ '\\') (rest : List Char) :
    parseStr (c :: rest) = (parseStr rest).map (fun p => (c :: p.1, p.2)) := by
  rw [parseStr.eq_def]
  simp [h1, h2]

theorem parseStr_esc_quote (rest : List Char) :
    parseStr ('\\' :: '"' :: rest) = (parseStr rest).map (fun p => ('"' :: p.1, p.2)) := by
  rw [parseStr.eq_def]
  simp

theorem parseStr_esc_backslash (rest : List Char) :
    parseStr ('\\' :: '\\' :: rest) = (parseStr rest).map (fun p => ('\\' :: p.1, p.2)) := by
  rw [parseStr.eq_def]
  simp

theorem parseStr_esc_b (rest : List Char) :
    parseStr ('\\' :: 'b' :: rest) = (parseStr rest).map (fun p => ('\x08' :: p.1, p.2)) := by
  rw [parseStr.eq_def]
  simp

theorem parseStr_esc_f (rest : List Char) :
    parseStr ('\\' :: 'f' :: rest) = (parseStr rest).map (fun p => ('\x0c' :: p.1, p.2)) := by
  rw [parseStr.eq_def]
  simp

theorem parseStr_esc_n (rest : List Char) :
    parseStr ('\\' :: 'n' :: rest) = (parseStr rest).map (fun p => ('\x0a' :: p.1, p.2)) := by
  rw [parseStr.eq_def]
  simp

theorem parseStr_esc_r (rest : List Char) :
    parseStr ('\\' :: 'r' :: rest) = (parseStr rest).map (fun p => ('\x0d' :: p.1, p.2)) := by
  rw [parseStr.eq_def]
  simp

theorem parseStr_esc_t (rest : List Char) :
    parseStr ('\\' :: 't' :: rest) = (parseStr rest).map (fun p => ('\x09' :: p.1, p.2)) := by
  rw [parseStr.eq_def]
  simp

theorem parseStr_esc_u (a b c d : Char) (rest : List Char) :
    parseStr ('\\' :: 'u' :: a :: b :: c :: d :: rest) =
      match parseHexDigit a, parseHexDigit b, parseHexDigit c, parseHexDigit d with
      | some d1, some d2, some d3, some d4 =>
        (parseStr rest).map
          (fun p => (Char.ofNat (d1 * 4096 + d2 * 256 + d3 * 16 + d4) :: p.1, p.2))
      | _, _, _, _ => none := by
  rw [parseStr.eq_def]
  simp

theorem parseStr_escape (s rest : List Char) :
    parseStr (escapeStr s ++ '"' :: rest) = some (s, rest) := by
  induction s with
  | nil => simpa [escapeStr] using parseStr_quote rest
  | cons c s ih =>
    show parseStr ((escapeChar c ++ escapeStr s) ++ '"' :: rest) = some (c :: s, rest)
    rw [List.append_assoc]
    by_cases h1 : c = '"'
    · subst h1
      simp [escapeChar, parseStr_esc_quote, ih]
    · by_cases h2 : c = '\\'
      · subst h2
        simp [escapeChar, parseStr_esc_backslash, ih]
      · by_cases h3 : c = '\x08'
        · subst h3
          simp [escapeChar, parseStr_esc_b, ih]
        · by_cases h4 : c = '\x09'
          · subst h4
            simp [escapeChar, parseStr_esc_t, ih]
          · by_cases h5 : c = '\x0a'
            · subst h5
              simp [escapeChar, parseStr_esc_n, ih]
            · by_cases h6 : c = '\x0c'
              · subst h6
                simp [escapeChar, parseStr_esc_f, ih]
              · by_cases h7 : c = '\x0d'
                · subst h7
                  simp [escapeChar, parseStr_esc_r, ih]
                · by_cases h8 : c.toNat < 32
                  · have hesc : escapeChar c =
                        '\\' :: 'u' :: '0' :: '0' :: hexPair c.toNat := by
                      simp [escapeChar, h1, h2, h3, h4, h5, h6, h7, h8]
                    have hd0 : parseHexDigit '0' = some 0 := by decide
                    have hd1 : parseHexDigit (hexDigitChar (c.toNat / 16)) =
                        some (c.toNat / 16) :=
                      parseHexDigit_hexDigitChar _ (by omega)
                    have hd2 : parseHexDigit (hexDigitChar (c.toNat % 16)) =
                        some (c.toNat % 16) :=
                      parseHexDigit_hexDigitChar _ (by omega)
                    have hch : Char.ofNat (c.toNat / 16 * 16 + c.toNat % 16) = c := by
                      rw [show c.toNat / 16 * 16 + c.toNat % 16 = c.toNat by omega]
                      exact Char.ofNat_toNat c
                    rw [hesc]
                    simp [hexPair, parseStr_esc_u, hd0, hd1, hd2, ih, hch]
                  · have hesc : escapeChar c = [c] := by
                      simp [escapeChar, h1, h2, h3, h4, h5, h6, h7, h8]
                    rw [hesc]
                    simp [parseStr_plain c h1 h2, ih]

theorem parseValue_null (f : Nat) (r : List Char) :
    parseValue (f + 1) (stringifyJson .null ++ r) = some (.null, r) := rfl

theorem parseValue_true (f : Nat) (r : List Char) :
    parseValue (f + 1) (stringifyJson (.bool true) ++ r) = some (.bool true, r) := rfl

theorem parseValue_false (f : Nat) (r : List Char) :
    parseValue (f + 1) (stringifyJson (.bool false) ++ r) = some (.bool false, r) := rfl

theorem parseValue_quote (f : Nat) (rest : List Char) :
    parseValue (f + 1) ('"' :: rest) = (parseStr rest).map (fun p => (.str p.1, p.2)) := rfl

theorem parseValue_arr_nil (f : Nat) (r : List Char) :
    parseValue (f + 1) ('[' :: ']' :: r) = some (.arr [], r) := rfl

theorem parseValue_obj_nil (f : Nat) (r : List Char) :
    parseValue (f + 1) ('\x7b' :: '\x7d' :: r) = some (.obj [], r) := rfl

set_option maxHeartbeats 1600000 in
theorem parseValue_arr_cons (f : Nat) (c : Char) (t : List Char) (h : c ≠ ']') :
    parseValue (f + 1) ('[' :: c :: t) =
      (parseElems f (c :: t)).map (fun p => (.arr p.1, p.2)) := by
  rw [parseValue.eq_def]
  simp only [Char.reduceEq, reduceIte]
  split
  · rename_i heq
    simp at heq
    exact absurd heq.1 h
  · rfl

set_option maxHeartbeats 1600000 in
theorem parseValue_obj_cons (f : Nat) (c : Char) (t : List Char) (h : c ≠ '\x7d') :
    parseValue (f + 1) ('\x7b' :: c :: t) =
      (parseFields f (c :: t)).map (fun p => (.obj p.1, p.2)) := by
  rw [parseValue.eq_def]
  simp only [Char.reduceEq, reduceIte]
  split
  · rename_i heq
    simp at heq
    exact absurd heq.1 h
  · rfl

set_option maxHeartbeats 1600000 in
theorem parseValue_neg (f : Nat) (d : Char) (t : List Char) (hd : d.isDigit = true) :
    parseValue (f + 1) ('-' :: d :: t) =
      some (.num (-(digitsToNat (spanDigits (d :: t)).1 : Int)), (spanDigits (d :: t)).2) := by
  rw [parseValue.eq_def]
  simp only [Char.reduceEq, reduceIte]
  simp [hd]

set_option maxHeartbeats 1600000 in
theorem parseValue_digit (f : Nat) (c : Char) (t : List Char) (hc : c.isDigit = true) :
    parseValue (f + 1) (c :: t) =
      some (.num (digitsToNat (spanDigits (c :: t)).1 : Int), (spanDigits (c :: t)).2) := by
  obtain ⟨h5, _, h6, _, _, _, h7, h1, h2, h3, h4⟩ := isDigit_ne c hc
  rw [parseValue.eq_def]
  simp [h1, h2, h3, h4, h5, h6, h7, hc]

theorem stringifyJson_head (j : Json) :
    ∃ c t, stringifyJson j = c :: t ∧ c ≠ ']' ∧ c ≠ '\x7d' ∧ c ≠ ',' ∧ c ≠ ':' := by
  cases j with
  | null => refine ⟨'n', _, rfl, ?_, ?_, ?_, ?_⟩ <;> decide
  | bool b =>
    cases b
    · refine ⟨'f', _, rfl, ?_, ?_, ?_, ?_⟩ <;> decide
    · refine ⟨'t', _, rfl, ?_, ?_, ?_, ?_⟩ <;> decide
  | num n =>
    by_cases hn : n < 0
    · refine ⟨'-', natChars n.natAbs, ?_, by decide, by decide, by decide, by decide⟩
      simp [stringifyJson, intChars, hn]
    · obtain ⟨hne, hdig, _⟩ := natChars_spec n.toNat
      obtain ⟨c, t, hct⟩ := List.exists_cons_of_ne_nil hne
      have hc : c.isDigit = true := hdig c (by simp [hct])
      obtain ⟨_, e1, _, e2, e3, e4, _, _, _, _, _⟩ := isDigit_ne c hc
      refine ⟨c, t, ?_, e1, e2, e3, e4⟩
      simp [stringifyJson, intChars, hn, hct]
  | str s => refine ⟨'"', _, rfl, ?_, ?_, ?_, ?_⟩ <;> decide
  | arr es =>
    cases es with
    | nil => refine ⟨'[', _, rfl, ?_, ?_, ?_, ?_⟩ <;> decide
    | cons e es2 => refine ⟨'[', _, rfl, ?_, ?_, ?_, ?_⟩ <;> decide
  | obj fs =>
    cases fs with
    | nil => refine ⟨'\x7b', _, rfl, ?_, ?_, ?_, ?_⟩ <;> decide
    | cons f fs2 => refine ⟨'\x7b', _, rfl, ?_, ?_, ?_, ?_⟩ <;> decide

theorem parseValue_num (f : Nat) (n : Int) (rest : List Char)
    (hb : ∀ c, rest.head? = some c → c.isDigit = false) :
    parseValue (f + 1) (stringifyJson (.num n) ++ rest) = some (.num n, rest) := by
  by_cases hn : n < 0
  · obtain ⟨hne, hdig, hval⟩ := natChars_spec n.natAbs
    obtain ⟨d, ds, hds⟩ := List.exists_cons_of_ne_nil hne
    have hd : d.isDigit = true := hdig d (by simp [hds])
    have hds2 : ∀ c ∈ ds, c.isDigit = true := fun c hc => hdig c (by simp [hds, hc])
    have hstr : stringifyJson (.num n) ++ rest = '-' :: d :: (ds ++ rest) := by
      simp [stringifyJson, intChars, hn, hds]
    rw [hstr, parseValue_neg f d _ hd]
    have hspan : spanDigits (d :: (ds ++ rest)) = (d :: ds, rest) := by
      have hall : ∀ c ∈ d :: ds, c.isDigit = true := by
        intro c hc
        rcases List.mem_cons.mp hc with rfl | hc
        · exact hd
        · exact hds2 c hc
      have := spanDigits_append (d :: ds) rest hall hb
      simpa using this
    rw [hspan]
    have hdn : digitsToNat (d :: ds) = n.natAbs := by rw [← hds, hval]
    rw [hdn]
    have : -(n.natAbs : Int) = n := by omega
    rw [this]
  · obtain ⟨hne, hdig, hval⟩ := natChars_spec n.toNat
    obtain ⟨d, ds, hds⟩ := List.exists_cons_of_ne_nil hne
    have hd : d.isDigit = true := hdig d (by simp [hds])
    have hds2 : ∀ c ∈ ds, c.isDigit = true := fun c hc => hdig c (by simp [hds, hc])
    have hstr : stringifyJson (.num n) ++ rest = d :: (ds ++ rest) := by
      simp [stringifyJson, intChars, hn, hds]
    rw [hstr, parseValue_digit f d _ hd]
    have hspan : spanDigits (d :: (ds ++ rest)) = (d :: ds, rest) := by
      have hall : ∀ c ∈ d :: ds, c.isDigit = true := by
        intro c hc
        rcases List.mem_cons.mp hc with rfl | hc
        · exact hd
        · exact hds2 c hc
      have := spanDigits_append (d :: ds) rest hall hb
      simpa using this
    rw [hspan]
    have hdn : digitsToNat (d :: ds) = n.toNat := by rw [← hds, hval]
    rw [hdn]
    have : (n.toNat : Int) = n := by omega
    rw [this]

theorem parseElems_succ (f : Nat) (cs : List Char) :
    parseElems (f + 1) cs =
      match parseValue f cs with
      | some (j, rest) =>
        match rest with
        | ',' :: rest1 => (parseElems f rest1).map (fun p => (j :: p.1, p.2))
        | ']' :: rest1 => some ([j], rest1)
        | _ => none
      | none => none := rfl

theorem parseFields_quote (f : Nat) (rest : List Char) :
    parseFields (f + 1) ('"' :: rest) =
      match parseStr rest with
      | some (k, rest1) =>
        match rest1 with
        | ':' :: rest2 =>
          match parseValue f rest2 with
          | some (v, rest3) =>
            match rest3 with
            | ',' :: rest4 => (parseFields f rest4).map (fun p => ((k, v) :: p.1, p.2))
            | '\x7d' :: rest4 => some ([(k, v)], rest4)
            | _ => none
          | none => none
        | _ => none
      | none => none := rfl

set_option maxHeartbeats 4000000 in
theorem parse_round_master (f : Nat) :
    (∀ j rest, jsonFuel j ≤ f →
      (∀ n, j = Json.num n → ∀ c, rest.head? = some c → c.isDigit = false) →
      parseValue f (stringifyJson j ++ rest) = some (j, rest)) ∧
    (∀ e es rest, elemsFuel (e :: es) ≤ f →
      parseElems f (stringifyJson e ++ (stringifyElemsRest es ++ ']' :: rest))
        = some (e :: es, rest)) ∧
    (∀ kv fs rest, fieldsFuel (kv :: fs) ≤ f →
      parseFields f (stringifyField kv ++ (stringifyFieldsRest fs ++ '\x7d' :: rest))
        = some (kv :: fs, rest)) := by
  induction f with
  | zero =>
    refine ⟨?_, ?_, ?_⟩
    · intro j rest hf _
      exfalso
      cases j <;> simp [jsonFuel] at hf
    · intro e es rest hf
      exfalso
      simp only [elemsFuel] at hf
      omega
    · intro kv fs rest hf
      exfalso
      simp only [fieldsFuel] at hf
      omega
  | succ f ih =>
    obtain ⟨ihv, ihe, ihf⟩ := ih
    refine ⟨?_, ?_, ?_⟩
    · intro j rest hf hb
      cases j with
      | null => exact parseValue_null f rest
      | bool b =>
        cases b
        · exact parseValue_false f rest
        · exact parseValue_true f rest
      | num n => exact parseValue_num f n rest (hb n rfl)
      | str s =>
        have hstr : stringifyJson (.str s) ++ rest = '"' :: (escapeStr s ++ '"' :: rest) := by
          simp [stringifyJson]
        rw [hstr, parseValue_quote, parseStr_escape]
        rfl
      | arr es =>
        cases es with
        | nil =>
          have hstr : stringifyJson (.arr []) ++ rest = '[' :: ']' :: rest := by
            simp [stringifyJson]
          rw [hstr, parseValue_arr_nil]
        | cons e es2 =>
          have hf2 : elemsFuel (e :: es2) ≤ f := by
            simp only [jsonFuel] at hf
            omega
          obtain ⟨c, t, hct, hc1, _, _, _⟩ := stringifyJson_head e
          have hstr : stringifyJson (.arr (e :: es2)) ++ rest =
              '[' :: c :: (t ++ (stringifyElemsRest es2 ++ ']' :: rest)) := by
            simp [stringifyJson, hct]
          rw [hstr, parseValue_arr_cons f c _ hc1]
          have hback : c :: (t ++ (stringifyElemsRest es2 ++ ']' :: rest)) =
              stringifyJson e ++ (stringifyElemsRest es2 ++ ']' :: rest) := by
            simp [hct]
          rw [hback, ihe e es2 rest hf2]
          rfl
      | obj fs =>
        cases fs with
        | nil =>
          have hstr : stringifyJson (.obj []) ++ rest = '\x7b' :: '\x7d' :: rest := by
            simp [stringifyJson]
          rw [hstr, parseValue_obj_nil]
        | cons kv fs2 =>
          obtain ⟨k, v⟩ := kv
          have hf2 : fieldsFuel ((k, v) :: fs2) ≤ f := by
            simp only [jsonFuel] at hf
            omega
          have hstr : stringifyJson (.obj ((k, v) :: fs2)) ++ rest =
              '\x7b' :: '"' :: ((escapeStr k ++ '"' :: ':' :: stringifyJson v) ++
                (stringifyFieldsRest fs2 ++ '\x7d' :: rest)) := by
            simp [stringifyJson, stringifyField]
          rw [hstr, parseValue_obj_cons f '"' _ (by decide)]
          have hback : ('"' : Char) :: ((escapeStr k ++ '"' :: ':' :: stringifyJson v) ++
                (stringifyFieldsRest fs2 ++ '\x7d' :: rest)) =
              stringifyField (k, v) ++ (stringifyFieldsRest fs2 ++ '\x7d' :: rest) := by
            simp [stringifyField]
          rw [hback, ihf (k, v) fs2 rest hf2]
          rfl
    · intro e es rest hf
      have hbe : ∀ n, e = Json.num n → ∀ c,
          (stringifyElemsRest es ++ ']' :: rest).head? = some c → c.isDigit = false := by
        intro n _ c hc
        cases es with
        | nil =>
          simp [stringifyElemsRest] at hc
          subst hc
          decide
        | cons e2 es2 =>
          simp [stringifyElemsRest] at hc
          subst hc
          decide
      have hfe : jsonFuel e ≤ f := by
        simp only [elemsFuel] at hf
        omega
      rw [parseElems_succ, ihv e _ hfe hbe]
      cases es with
      | nil =>
        simp [stringifyElemsRest]
      | cons e2 es2 =>
        have hf3 : elemsFuel (e2 :: es2) ≤ f := by
          simp only [elemsFuel] at hf ⊢
          omega
        simp only [stringifyElemsRest, List.cons_append, List.append_assoc]
        simp [ihe e2 es2 rest hf3]
    · intro kv fs rest hf
      obtain ⟨k, v⟩ := kv
      have hfv : jsonFuel v ≤ f := by
        simp only [fieldsFuel] at hf
        omega
      have hcs : stringifyField (k, v) ++ (stringifyFieldsRest fs ++ '\x7d' :: rest) =
          '"' :: (escapeStr k ++ '"' ::
            (':' :: (stringifyJson v ++ (stringifyFieldsRest fs ++ '\x7d' :: rest)))) := by
        simp [stringifyField]
      rw [hcs, parseFields_quote, parseStr_escape]
      cases fs with
      | nil =>
        have hbnil : ∀ n, v = Json.num n → ∀ c,
            ('\x7d' :: rest).head? = some c → c.isDigit = false := by
          intro n _ c hc
          rw [List.head?_cons, Option.some.injEq] at hc
          subst hc
          decide
        simp only [stringifyFieldsRest, List.nil_append]
        simp [ihv v ('\x7d' :: rest) hfv hbnil]
      | cons kv2 fs2 =>
        have hf3 : fieldsFuel (kv2 :: fs2) ≤ f := by
          simp only [fieldsFuel] at hf ⊢
          omega
        have hbcons : ∀ n, v = Json.num n → ∀ c,
            (',' :: (stringifyField kv2 ++ (stringifyFieldsRest fs2 ++ '\x7d' :: rest))).head?
              = some c → c.isDigit = false := by
          intro n _ c hc
          rw [List.head?_cons, Option.some.injEq] at hc
          subst hc
          decide
        simp only [stringifyFieldsRest, List.cons_append, List.append_assoc]
        simp [ihv v _ hfv hbcons, ihf kv2 fs2 rest hf3]

mutual
theorem jsonFuel_le_length : (j : Json) → jsonFuel j ≤ (stringifyJson j).length
  | .null => by simp [jsonFuel, stringifyJson]
  | .bool b => by cases b <;> simp [jsonFuel, stringifyJson]
  | .num n => by
    have h := List.length_pos.mpr (natChars_spec n.natAbs).1
    have h2 := List.length_pos.mpr (natChars_spec n.toNat).1
    by_cases hn : n < 0 <;>
      · simp only [jsonFuel, stringifyJson, intChars, hn, if_true, if_false,
          List.length_cons]
        omega
  | .str s => by simp [jsonFuel, stringifyJson]
  | .arr [] => by simp [jsonFuel, elemsFuel, stringifyJson]
  | .arr (e :: es) => by
    have h := elemsFuel_le_length (e :: es)
    simp only [stringifyElemsRest, List.length_cons, List.length_append] at h
    simp only [jsonFuel, stringifyJson, List.length_cons, List.length_append]
    omega
  | .obj [] => by simp [jsonFuel, fieldsFuel, stringifyJson]
  | .obj (kv :: fs) => by
    have h := fieldsFuel_le_length (kv :: fs)
    simp only [stringifyFieldsRest, List.length_cons, List.length_append] at h
    simp only [jsonFuel, stringifyJson, List.length_cons, List.length_append]
    omega

theorem elemsFuel_le_length : (es : List Json) →
    elemsFuel es ≤ (stringifyElemsRest es).length
  | [] => by simp [elemsFuel, stringifyElemsRest]
  | e :: es => by
    have h1 := jsonFuel_le_length e
    have h2 := elemsFuel_le_length es
    simp only [elemsFuel, stringifyElemsRest, List.length_cons, List.length_append]
    omega

theorem fieldsFuel_le_length : (fs : List (List Char × Json)) →
    fieldsFuel fs ≤ (stringifyFieldsRest fs).length
  | [] => by simp [fieldsFuel, stringifyFieldsRest]
  | (k, v) :: fs => by
    have h1 := jsonFuel_le_length v
    have h2 := fieldsFuel_le_length fs
    simp only [fieldsFuel, stringifyFieldsRest, stringifyField, List.length_cons,
      List.length_append]
    omega
end

theorem jsonParse_stringify (j : Json) : jsonParse (stringifyJson j) = some j := by
  unfold jsonParse
  have hlen := jsonFuel_le_length j
  have hb : ∀ n, j = Json.num n → ∀ c, ([] : List Char).head? = some c →
      c.isDigit = false := by
    intro n _ c hc
    simp at hc
  have h := (parse_round_master ((stringifyJson j).length + 1)).1 j [] (by omega) hb
  rw [List.append_nil] at h
  rw [h]

/-- C7: for a structured record handed to `_prepareBody` with no
`Content-Type` among the effective headers (held, as along every call
pipeline, as a header object), the encoder sets `Content-Type:
application/json`, the body becomes the JSON serialization of the record,
and decoding that body as JSON returns a value deep-equal to the original
record. -/
theorem c7_json_body_roundtrip (st : RequestHelperState) (opts : List (String × JsVal))
    (hfs : List (String × JsVal)) (j : Json)
    (hhead : lookupField opts "headers" = some (.obj hfs))
    (hct : lookupHeaderField opts "Content-Type" = none)
    (_hj : jsInstanceofObject (jsonToJsVal j) = true) :
    RequestHelper.prepareBody st opts (.record j) =
      .ok (setHeaderField opts "Content-Type" (.str "application/json"),
           .strBody (String.mk (stringifyJson j))) ∧
    lookupHeaderField (setHeaderField opts "Content-Type" (.str "application/json"))
      "Content-Type" = some (.str "application/json") ∧
    jsonParse (stringifyJson j) = some j := by
  refine ⟨?_, ?_, jsonParse_stringify j⟩
  · simp [RequestHelper.prepareBody, hct]
  · unfold setHeaderField
    rw [hhead]
    unfold lookupHeaderField
    rw [lookupField_setField]
    simp [lookupField_setField]

/-- Witness for C7 at a concrete record and empty headers. -/
theorem c7_json_body_roundtrip_witness :
    RequestHelper.prepareBody (RequestHelper.construct (.obj []))
      [("headers", .obj [])] (.record (.obj [("a".toList, .str "x".toList)])) =
      .ok (setHeaderField [("headers", .obj [])] "Content-Type" (.str "application/json"),
           .strBody (String.mk (stringifyJson (.obj [("a".toList, .str "x".toList)])))) ∧
    lookupHeaderField
      (setHeaderField [("headers", .obj [])] "Content-Type" (.str "application/json"))
      "Content-Type" = some (.str "application/json") ∧
    jsonParse (stringifyJson (.obj [("a".toList, .str "x".toList)])) =
      some (.obj [("a".toList, .str "x".toList)]) :=
  c7_json_body_roundtrip (RequestHelper.construct (.obj [])) [("headers", .obj [])]
    [] (.obj [("a".toList, .str "x".toList)]) rfl rfl rfl
